import Mathlib

/-!
Shallow embedding of hafas2gtfs.py (class Hafas2GTFS and its helpers).

Conventions of the embedding:
- Input files are given as lists of already-decoded text lines without the
  trailing newline character (the Python code iterates file lines and decodes
  latin1; every slice the code takes is unaffected by the trailing newline,
  either because the slice ends before it, because the result is stripped, or
  because the bitstring hex reader removes whitespace).
- Python ints are Int, Python str is String.  KeyError / ValueError /
  IndexError aborts are modelled with Except; every operation returns the
  state reached at the moment of the abort, mirroring rows already written to
  the output files when the run dies.
- The seven csv writers are modelled as one chronological event log in the
  state; append order within each table is the order of its events in the log.
- datetime values are modelled by the Date structure; datetime subtraction
  uses the proleptic Gregorian day ordinal, and strftime of the %Y%m%d kind
  is modelled by the decimal number y*10000+m*100+d.
- Floating point coordinate values are not interpreted: the pluggable
  projector (self.projector from get_projector) is an opaque parameter
  mapping the two stripped source texts to the two printed output texts, and
  the float(...) calls are modelled by a syntactic validity check.
-/

/-- Python exception kinds relevant to the translated code. -/
inductive PyErr where
  | keyError
  | valueError
  | indexError
deriving DecidableEq

/-- Decidable equality for Except results (needed to evaluate runs). -/
instance {e a : Type} [DecidableEq e] [DecidableEq a] : DecidableEq (Except e a) :=
  fun x y =>
    match x, y with
    | .ok v, .ok w =>
      if h : v = w then isTrue (by rw [h]) else isFalse (fun hc => by cases hc; exact h rfl)
    | .error v, .error w =>
      if h : v = w then isTrue (by rw [h]) else isFalse (fun hc => by cases hc; exact h rfl)
    | .ok _, .error _ => isFalse (fun hc => by cases hc)
    | .error _, .ok _ => isFalse (fun hc => by cases hc)

/-- Characters removed by str.strip() in Python. -/
def isPySpace (c : Char) : Bool :=
  c = ' ' || c = '\t' || c = '\n' || c = '\r' || c = '\x0b' || c = '\x0c'

/-- Python str.strip(). -/
def pyStrip (s : String) : String :=
  String.mk (((s.data.dropWhile isPySpace).reverse.dropWhile isPySpace).reverse)

/-- Python s[a:b] for 0 <= a <= b positions (clamped at the string length). -/
def strSlice (s : String) (a b : Nat) : String :=
  String.mk ((s.data.drop a).take (b - a))

/-- Python s[n:]. -/
def strDrop (s : String) (n : Nat) : String :=
  String.mk (s.data.drop n)

/-- Python s[i] as an Option (the code only ever indexes lines that extend
past the index, thanks to the trailing newline). -/
def charAt (s : String) (i : Nat) : Option Char :=
  s.data.get? i

/-- Python s.startswith(p). -/
def pyStartsWith (s p : String) : Bool :=
  p.data.isPrefixOf s.data

/-- Decimal value of a nonempty all-digit character list. -/
def digitsVal (cs : List Char) : Option Nat :=
  if cs.isEmpty then none
  else if cs.all Char.isDigit then
    some (cs.foldl (fun a c => a * 10 + (c.toNat - 48)) 0)
  else none

/-- Python int(s): strip whitespace, optional sign, nonempty digit run;
anything else raises ValueError. -/
def pyInt (s : String) : Except PyErr Int :=
  match (pyStrip s).data with
  | '+' :: rest =>
    match digitsVal rest with
    | some n => .ok (n : Int)
    | none => .error .valueError
  | '-' :: rest =>
    match digitsVal rest with
    | some n => .ok (-(n : Int))
    | none => .error .valueError
  | cs =>
    match digitsVal cs with
    | some n => .ok (n : Int)
    | none => .error .valueError

/-- Split a character list on a separator character (Python str.split(sep)). -/
def splitCharList (sep : Char) : List Char → List (List Char)
  | [] => [[]]
  | x :: xs =>
    let r := splitCharList sep xs
    if x = sep then [] :: r
    else
      match r with
      | [] => [[x]]
      | h :: t => (x :: h) :: t

/-- Split the exponent marker of a Python float literal body. -/
def splitExp : List Char → List Char × Option (List Char)
  | [] => ([], none)
  | c :: r =>
    if c = 'e' || c = 'E' then ([], some r)
    else
      let p := splitExp r
      (c :: p.1, p.2)

/-- Nonempty digit run. -/
def isDigits (cs : List Char) : Bool :=
  !cs.isEmpty && cs.all Char.isDigit

/-- Mantissa of a Python float literal: digits, digits.digits, .digits or digits. -/
def mantissaOk (cs : List Char) : Bool :=
  match splitCharList '.' cs with
  | [a] => isDigits a
  | [a, b] => (a.all Char.isDigit && b.all Char.isDigit) && (!a.isEmpty || !b.isEmpty)
  | _ => false

/-- Optional-signed nonempty digit run (float exponent part). -/
def expOk (cs : List Char) : Bool :=
  match cs with
  | '+' :: r => isDigits r
  | '-' :: r => isDigits r
  | r => isDigits r

/-- Syntactic validity of Python float(s) (the code never uses the numeric
value of a coordinate except through the opaque projector). -/
def isPyFloat (s : String) : Bool :=
  let cs := (pyStrip s).data
  let cs :=
    match cs with
    | '+' :: r => r
    | '-' :: r => r
    | r => r
  let lower := cs.map Char.toLower
  if lower = ("inf").data || lower = ("infinity").data || lower = ("nan").data then true
  else
    let p := splitExp cs
    match p.2 with
    | none => mantissaOk p.1
    | some e => mantissaOk p.1 && expOk e

/-- Python str.zfill(w): pad with zeros on the left after an optional sign. -/
def zfill (w : Nat) (s : String) : String :=
  if w ≤ s.length then s
  else
    match s.data with
    | '-' :: rest => String.mk ('-' :: List.replicate (w - s.length) '0' ++ rest)
    | '+' :: rest => String.mk ('+' :: List.replicate (w - s.length) '0' ++ rest)
    | cs => String.mk (List.replicate (w - s.length) '0' ++ cs)

/-- Value of one hex digit. -/
def hexVal (c : Char) : Option Nat :=
  if '0' ≤ c ∧ c ≤ '9' then some (c.toNat - 48)
  else if 'a' ≤ c ∧ c ≤ 'f' then some (c.toNat - 87)
  else if 'A' ≤ c ∧ c ≤ 'F' then some (c.toNat - 55)
  else none

/-- bitstring.Bits(hex=s): whitespace is removed by the library before the
hex digits are read, each digit contributing four bits most significant
first; an invalid digit raises. -/
def hexToBits (s : String) : Option (List Bool) :=
  let cs := s.data.filter (fun c => !(isPySpace c))
  (cs.mapM hexVal).map (fun vs =>
    vs.flatMap (fun v => [v.testBit 3, v.testBit 2, v.testBit 1, v.testBit 0]))

/-- Effective index of a Python slice endpoint (step 1). -/
def pySliceIdx (len : Nat) (i : Int) : Nat :=
  if i < 0 then len - (-i).toNat else min i.toNat len

/-- Python l[a:b] with full slice semantics (negative endpoints count from
the end, everything is clamped). -/
def pySliceList (l : List Bool) (a b : Int) : List Bool :=
  let s := pySliceIdx l.length a
  let e := pySliceIdx l.length b
  (l.drop s).take (e - s)

/-- A calendar date as parsed from DD.MM.YYYY. -/
structure Date where
  day : Nat
  month : Nat
  year : Nat
deriving DecidableEq

/-- Proleptic Gregorian day ordinal (days-from-civil); differences of these
ordinals are exactly datetime subtraction .days. -/
def Date.toOrd (dt : Date) : Nat :=
  let y := if dt.month ≤ 2 then dt.year - 1 else dt.year
  let mp := if 2 < dt.month then dt.month - 3 else dt.month + 9
  let doy := (153 * mp + 2) / 5 + dt.day - 1
  365 * y + y / 4 - y / 100 + y / 400 + doy

/-- Inverse of Date.toOrd (used to model start + timedelta(days=i)). -/
def civilFromDays (z : Nat) : Date :=
  let era := z / 146097
  let doe := z % 146097
  let yoe := (doe - doe / 1460 + doe / 36524 - doe / 146096) / 365
  let y := yoe + era * 400
  let doy := doe - (365 * yoe + yoe / 4 - yoe / 100)
  let mp := (5 * doy + 2) / 153
  let d := doy - (153 * mp + 2) / 5 + 1
  let m := if mp < 10 then mp + 3 else mp - 9
  { day := d, month := m, year := if m ≤ 2 then y + 1 else y }

/-- strftime %Y%m%d read as a decimal number. -/
def dateYmd (dt : Date) : Nat :=
  dt.year * 10000 + dt.month * 100 + dt.day

/-- datetime.strptime(s, then DD.MM.YYYY): three dot-separated integer
fields in calendar range. -/
def strptimeDmy (s : String) : Except PyErr Date :=
  match splitCharList '.' s.data with
  | [ds, ms, ys] =>
    match pyInt (String.mk ds), pyInt (String.mk ms), pyInt (String.mk ys) with
    | .ok d, .ok m, .ok y =>
      if 1 ≤ d ∧ d ≤ 31 ∧ 1 ≤ m ∧ m ≤ 12 ∧ 1 ≤ y then
        .ok { day := d.toNat, month := m.toNat, year := y.toNat }
      else .error .valueError
    | _, _, _ => .error .valueError
  | _ => .error .valueError

/-- A resolved route id: either the explicit line number string from an L
meta line, or an int produced by the run-scoped counter.  In Python these
live in one dict whose str and int keys never compare equal. -/
inductive RouteId where
  | str (s : String)
  | num (n : Nat)
deriving DecidableEq

/-- Row written to agency.txt. -/
structure AgencyRow where
  agency_id : String
  agency_name : String
  agency_url : String
  agency_timezone : String
  agency_lang : String
  agency_phone : String
deriving DecidableEq

/-- Row written to routes.txt. -/
structure RouteRow where
  route_id : RouteId
  agency_id : String
  route_short_name : RouteId
  route_long_name : RouteId
  route_desc : String
  route_type : String
  route_url : String
  route_color : String
  route_text_color : String
deriving DecidableEq

/-- Row written to trips.txt. -/
structure TripRow where
  route_id : RouteId
  service_id : String
  trip_id : Int
  trip_headsign : String
  trip_short_name : String
  direction_id : String
  block_id : String
  shape_id : String
deriving DecidableEq

/-- Row written to stop_times.txt. -/
structure StopTimeRow where
  trip_id : Int
  arrival_time : Option String
  departure_time : Option String
  stop_id : Int
  stop_sequence : Nat
  stop_headsign : String
  pickup_type : String
  drop_off_type : String
  shape_dist_traveled : String
deriving DecidableEq

/-- Row written to stops.txt (stop_lat and stop_lon hold the printed
projector output). -/
structure StopRow where
  stop_id : Int
  stop_code : Int
  stop_name : String
  stop_desc : String
  stop_lat : String
  stop_lon : String
  zone_id : Option String
  stop_url : String
  location_type : String
  parent_station : Option String
deriving DecidableEq

/-- Row written to calendar.txt. -/
structure CalendarRow where
  service_id : String
  monday : String
  tuesday : String
  wednesday : String
  thursday : String
  friday : String
  saturday : String
  sunday : String
  start_date : Nat
  end_date : Nat
deriving DecidableEq

/-- Row written to calendar_dates.txt. -/
structure CalendarDateRow where
  service_id : Int
  date : Nat
  exception_type : Nat
deriving DecidableEq

/-- One chronological sink event; append order inside each table is its
order in the log. -/
inductive Event where
  | agencyRow (r : AgencyRow)
  | routeRow (r : RouteRow)
  | tripRow (r : TripRow)
  | stopTimeRow (r : StopTimeRow)
  | stopRow (r : StopRow)
  | calendarRow (r : CalendarRow)
  | calendarDateRow (r : CalendarDateRow)
deriving DecidableEq

/-- The per-trip meta accumulator (a Python dict with these possible keys). -/
structure Meta where
  service_number : Option Int := none
  administration : Option String := none
  number_intervals : Option String := none
  time_offset : Option String := none
  mean_of_transport : Option String := none
  start_index : Option String := none
  end_index : Option String := none
  bitfield_number : Option Int := none
  line_number : Option String := none
  direction : Option String := none
deriving DecidableEq

/-- One record of self.stops (a Python dict with these possible keys). -/
structure StopData where
  name : Option String := none
  authority : Option String := none
  lat : Option String := none
  lon : Option String := none
  done : Bool := false
deriving DecidableEq

/-- defaultdict(dict) lookup: a missing stop id yields the empty record. -/
def stopsGet (stops : List (Int × StopData)) (id : Int) : StopData :=
  match stops with
  | [] => {}
  | p :: rest => if p.1 = id then p.2 else stopsGet rest id

/-- Store a stop record under its id (update in place or append). -/
def stopsSet (stops : List (Int × StopData)) (id : Int) (sd : StopData) :
    List (Int × StopData) :=
  match stops with
  | [] => [(id, sd)]
  | p :: rest => if p.1 = id then (id, sd) :: rest else p :: stopsSet rest id sd

/-- The mutable converter state of one Hafas2GTFS instance plus the sink. -/
structure St where
  routeCounter : Nat
  routes : List RouteId
  stops : List (Int × StopData)
  services : List (Int × List Bool)
  start : Date
  endD : Date
  agency_id : String
  name : String
  log : List Event
deriving DecidableEq

/-- State right after Hafas2GTFS.__init__ (dates carry placeholder values
until parse_eckdaten assigns them; agency_id is assigned by write_agency
before any route is written in create). -/
def initSt : St :=
  { routeCounter := 0
    routes := []
    stops := []
    services := []
    start := { day := 1, month := 1, year := 1 }
    endD := { day := 1, month := 1, year := 1 }
    agency_id := ""
    name := ""
    log := [] }

/-- The ROUTE_TYPES mapping of the source (every listed code maps to 0). -/
def ROUTE_TYPES : List (String × Nat) :=
  [("UUU", 0), ("BUS", 0), ("NFB", 0), ("STR", 0), ("STA", 0), ("SBA", 0),
   ("ZUG", 0), ("SCH", 0), ("ALT", 0), ("TB", 0), ("VUU", 0), ("VBU", 0),
   ("VNF", 0), ("VSR", 0), ("VSA", 0), ("VSB", 0), ("VZU", 0), ("VSC", 0),
   ("VAL", 0)]

/-- ROUTE_TYPES.get(k, d). -/
def routeTypesGet (k : String) (d : Nat) : Nat :=
  match ROUTE_TYPES.lookup k with
  | some v => v
  | none => d

/-- get_projector(None): the identity projector returning (y, x). -/
def projIdentity : String → String → String × String :=
  fun x y => (y, x)

/-- Hafas2GTFS.write_agency. -/
def write_agency (st : St) : St :=
  { st with
      agency_id := "1"
      log := st.log ++ [Event.agencyRow
        { agency_id := "1", agency_name := "Agency Name", agency_url := ""
          agency_timezone := "", agency_lang := "", agency_phone := "" }] }

/-- The full-week calendar row written by write_service. -/
def fullServiceRow (st : St) (sid : String) : Event :=
  Event.calendarRow
    { service_id := sid, monday := "1", tuesday := "1", wednesday := "1"
      thursday := "1", friday := "1", saturday := "1", sunday := "1"
      start_date := dateYmd st.start, end_date := dateYmd st.endD }

/-- Hafas2GTFS.write_service: the default id 0 row plus one row per decoded
service id. -/
def write_service (st : St) : St :=
  { st with
      log := st.log ++ [fullServiceRow st ("0")]
        ++ st.services.map (fun p => fullServiceRow st (toString p.1)) }

/-- Hafas2GTFS.write_service_dates: one calendar_dates row per set bit,
dated start + timedelta(days=i). -/
def write_service_dates (st : St) : St :=
  { st with
      log := st.log ++ (st.services.map (fun p =>
        p.2.enum.filterMap (fun q =>
          if q.2 then
            some (Event.calendarDateRow
              { service_id := p.1
                date := dateYmd (civilFromDays (st.start.toOrd + q.1))
                exception_type := 1 })
          else none))).flatten }

/-- The writerow part of write_route: the route is already registered when
the row dict is built, and meta a.s. mean_of_transport is read there, so a
missing key aborts after registration but before the row is appended. -/
def emitRoute (rid : RouteId) (meta : Meta) (st : St) :
    Except PyErr RouteId × St :=
  match meta.mean_of_transport with
  | none => (.error .keyError, st)
  | some m =>
    (.ok rid,
      { st with
          log := st.log ++ [Event.routeRow
            { route_id := rid, agency_id := st.agency_id
              route_short_name := rid, route_long_name := rid
              route_desc := "", route_type := toString (routeTypesGet m 0)
              route_url := "", route_color := "", route_text_color := "" }] })

/-- Hafas2GTFS.write_route. -/
def write_route (meta : Meta) (st : St) : Except PyErr RouteId × St :=
  match meta.line_number with
  | some s =>
    let rid := RouteId.str s
    if rid ∈ st.routes then (.ok rid, st)
    else emitRoute rid meta { st with routes := rid :: st.routes }
  | none =>
    let c := st.routeCounter + 1
    let rid := RouteId.num c
    let st1 : St := { st with routeCounter := c }
    if rid ∈ st1.routes then (.ok rid, st1)
    else emitRoute rid meta { st1 with routes := rid :: st1.routes }

/-- Hafas2GTFS.write_trip: str(meta.get(bitfield_number-key, 0)) is the
service id; meta a.s. service_number is the trip id and a missing key aborts
before the row is appended. -/
def write_trip (route_id : RouteId) (meta : Meta) (st : St) :
    Except PyErr Int × St :=
  let service_id := toString (meta.bitfield_number.getD 0)
  match meta.service_number with
  | none => (.error .keyError, st)
  | some sn =>
    (.ok sn,
      { st with
          log := st.log ++ [Event.tripRow
            { route_id := route_id, service_id := service_id, trip_id := sn
              trip_headsign := "", trip_short_name := ""
              direction_id := meta.direction.getD "0"
              block_id := "", shape_id := "" }] })

/-- Hafas2GTFS.get_gtfs_time: None stays None, an (hour, minute) pair gets
a seconds field and zero padding. -/
def get_gtfs_time : Option (Int × Int) → Option String
  | none => none
  | some hm =>
    some (zfill 2 (toString hm.1) ++ ":" ++ zfill 2 (toString hm.2) ++ ":" ++ "00")

/-- Hafas2GTFS.write_stop: the first reference of a not-yet-done stop reads
name, lat and lon out of the registry record (KeyError when absent, with no
partial row) and marks the record done after the row is written. -/
def write_stop (stop_id : Int) (st : St) : Except PyErr Int × St :=
  let sd := stopsGet st.stops stop_id
  if sd.done then (.ok stop_id, st)
  else
    match sd.name, sd.lat, sd.lon with
    | some nm, some la, some lo =>
      (.ok stop_id,
        { st with
            log := st.log ++ [Event.stopRow
              { stop_id := stop_id, stop_code := stop_id, stop_name := nm
                stop_desc := "", stop_lat := la, stop_lon := lo
                zone_id := none, stop_url := "", location_type := "0"
                parent_station := none }]
            stops := stopsSet st.stops stop_id { sd with done := true } })
    | _, _, _ => (.error .keyError, st)

/-- The parsed fields of one schedule data line. -/
structure StopLine where
  stop_id : Int
  stop_name : String
  arrival_time : Option (Int × Int)
  departure_time : Option (Int × Int)
deriving DecidableEq

/-- Python truthiness of an optional string. -/
def pyFalsy : Option String → Bool
  | none => true
  | some s => s.isEmpty

/-- Hafas2GTFS.write_stop_time: resolve the stop, then copy a lone arrival
or departure over to the missing side before the row is appended. -/
def write_stop_time (trip_id : Int) (stop_sequence : Nat) (sl : StopLine)
    (st : St) : Except PyErr Unit × St :=
  match write_stop sl.stop_id st with
  | (.error e, st1) => (.error e, st1)
  | (.ok stop_id, st1) =>
    let a0 := get_gtfs_time sl.arrival_time
    let d0 := get_gtfs_time sl.departure_time
    let p :=
      if pyFalsy a0 && !(pyFalsy d0) then (d0, d0)
      else if pyFalsy d0 && !(pyFalsy a0) then (a0, a0)
      else (a0, d0)
    (.ok (),
      { st1 with
          log := st1.log ++ [Event.stopTimeRow
            { trip_id := trip_id, arrival_time := p.1, departure_time := p.2
              stop_id := stop_id, stop_sequence := stop_sequence
              stop_headsign := "", pickup_type := "0", drop_off_type := "0"
              shape_dist_traveled := "0" }] })

/-- Hafas2GTFS.parse_eckdaten: line 1 is the start date, line 2 the end
date (and is also stored as self.name); a missing line is an IndexError and
a malformed date aborts via strptime. -/
def parse_eckdaten (lines : List String) (st : St) : Except PyErr Unit × St :=
  match lines with
  | [] => (.error .indexError, st)
  | [l0] =>
    match strptimeDmy l0 with
    | .error e => (.error e, st)
    | .ok d0 => (.error .indexError, { st with start := d0 })
  | l0 :: l1 :: _ =>
    match strptimeDmy l0 with
    | .error e => (.error e, st)
    | .ok d0 =>
      match strptimeDmy l1 with
      | .error e => (.error e, { st with start := d0 })
      | .ok d1 => (.ok (), { st with start := d0, endD := d1, name := l1 })

/-- The day window length computed by parse_bitfeld:
(self.start - self.end).days + 1.  Note the operand order of the source. -/
def bitfeldDayRange (st : St) : Int :=
  ((st.start.toOrd : Int) - (st.endD.toOrd : Int)) + 1

/-- Decode one bitfeld line: a six-digit service id, then the hex payload,
of which bits [2 : 2 + day_range] (Python slice semantics) are kept. -/
def parse_bitfeld_line (day_range : Int) (line : String) :
    Except PyErr (Int × List Bool) :=
  match pyInt (strSlice line 0 6) with
  | .error e => .error e
  | .ok sid =>
    match hexToBits (strDrop line 6) with
    | none => .error .valueError
    | some bits => .ok (sid, pySliceList bits 2 (2 + day_range))

/-- Store a decoded service under its id (dict assignment). -/
def servicesSet (services : List (Int × List Bool)) (id : Int) (v : List Bool) :
    List (Int × List Bool) :=
  match services with
  | [] => [(id, v)]
  | p :: rest => if p.1 = id then (id, v) :: rest else p :: servicesSet rest id v

/-- Line loop of parse_bitfeld. -/
def parse_bitfeld_go (day_range : Int) : List String → St → Except PyErr Unit × St
  | [], st => (.ok (), st)
  | line :: rest, st =>
    match parse_bitfeld_line day_range line with
    | .error e => (.error e, st)
    | .ok p =>
      parse_bitfeld_go day_range rest
        { st with services := servicesSet st.services p.1 p.2 }

/-- Hafas2GTFS.parse_bitfeld: reset self.services, compute the day window
once, then decode every line. -/
def parse_bitfeld (lines : List String) (st : St) : Except PyErr Unit × St :=
  parse_bitfeld_go (bitfeldDayRange st) lines { st with services := [] }

/-- Hafas2GTFS.parse_bfkoord: for each line, numeric stop id in columns 0-6,
x text in 8-17 and y text in 19-28 (both must read as Python floats), then
merge the projector output into the registry record. -/
def parse_bfkoord (proj : String → String → String × String) :
    List String → St → Except PyErr Unit × St
  | [], st => (.ok (), st)
  | line :: rest, st =>
    match pyInt (pyStrip (strSlice line 0 7)) with
    | .error e => (.error e, st)
    | .ok sid =>
      let xs := pyStrip (strSlice line 8 18)
      if isPyFloat xs then
        let ys := pyStrip (strSlice line 19 29)
        if isPyFloat ys then
          let ll := proj xs ys
          parse_bfkoord proj rest
            { st with
                stops := stopsSet st.stops sid
                  { stopsGet st.stops sid with lat := some ll.1, lon := some ll.2 } }
        else (.error .valueError, st)
      else (.error .valueError, st)

/-- Hafas2GTFS.parse_bahnhof: numeric stop id in columns 0-6, authority code
in 8-10 (unstripped), name from column 12 on (stripped); merge both into the
registry record. -/
def parse_bahnhof : List String → St → Except PyErr Unit × St
  | [], st => (.ok (), st)
  | line :: rest, st =>
    match pyInt (pyStrip (strSlice line 0 7)) with
    | .error e => (.error e, st)
    | .ok sid =>
      let auth := strSlice line 8 11
      let nm := pyStrip (strDrop line 12)
      parse_bahnhof rest
        { st with
            stops := stopsSet st.stops sid
              { stopsGet st.stops sid with name := some nm, authority := some auth } }

/-- Hafas2GTFS.parse_time: strip the 4-character field; empty means absent,
otherwise the first two characters are the hour and the next two the minute
(int on each, so a short or non-numeric remainder raises). -/
def parse_time (s : String) : Except PyErr (Option (Int × Int)) :=
  let t := pyStrip s
  if t.isEmpty then .ok none
  else
    match pyInt (strSlice t 0 2) with
    | .error e => .error e
    | .ok h =>
      match pyInt (strSlice t 2 4) with
      | .error e => .error e
      | .ok m => .ok (some (h, m))

/-- Hafas2GTFS.parse_schedule: fixed columns of one data line. -/
def parse_schedule (line : String) : Except PyErr StopLine :=
  match pyInt (strSlice line 0 7) with
  | .error e => .error e
  | .ok sid =>
    let nm := pyStrip (strSlice line 8 29)
    match parse_time (strSlice line 29 33) with
    | .error e => .error e
    | .ok at_ =>
      match parse_time (strSlice line 34 38) with
      | .error e => .error e
      | .ok dt =>
        .ok { stop_id := sid, stop_name := nm, arrival_time := at_, departure_time := dt }

/-- Hafas2GTFS.parse_fplan_meta_Z. -/
def parse_fplan_meta_Z (line : String) : Except PyErr (Meta → Meta) :=
  match pyInt (strSlice line 3 8) with
  | .error e => .error e
  | .ok sn =>
    .ok (fun m =>
      { m with
          service_number := some sn
          administration := some (strSlice line 9 15)
          number_intervals := some (strSlice line 22 25)
          time_offset := some (strSlice line 26 29) })

/-- Hafas2GTFS.parse_fplan_meta_G. -/
def parse_fplan_meta_G (line : String) : Except PyErr (Meta → Meta) :=
  .ok (fun m => { m with mean_of_transport := some (pyStrip (strSlice line 3 6)) })

/-- Hafas2GTFS.parse_fplan_meta_A: only the VE sub-type contributes fields. -/
def parse_fplan_meta_A (line : String) : Except PyErr (Meta → Meta) :=
  if strSlice line 3 5 = "VE" then
    match pyInt (strSlice line 22 28) with
    | .error e => .error e
    | .ok bn =>
      .ok (fun m =>
        { m with
            start_index := some (strSlice line 6 13)
            end_index := some (strSlice line 14 21)
            bitfield_number := some bn })
  else .ok id

/-- Hafas2GTFS.parse_fplan_meta_I: recognized, contributes nothing. -/
def parse_fplan_meta_I (_line : String) : Except PyErr (Meta → Meta) :=
  .ok id

/-- Hafas2GTFS.parse_fplan_meta_L. -/
def parse_fplan_meta_L (line : String) : Except PyErr (Meta → Meta) :=
  .ok (fun m => { m with line_number := some (pyStrip (strSlice line 3 11)) })

/-- Hafas2GTFS.parse_fplan_meta_R. -/
def parse_fplan_meta_R (line : String) : Except PyErr (Meta → Meta) :=
  .ok (fun m => { m with direction := some (pyStrip (strSlice line 3 4)) })

/-- Hafas2GTFS.parse_fplan_meta: dispatch on the tag character at index 1;
a tag without an extractor contributes nothing. -/
def parse_fplan_meta (line : String) : Except PyErr (Meta → Meta) :=
  match charAt line 1 with
  | some 'Z' => parse_fplan_meta_Z line
  | some 'G' => parse_fplan_meta_G line
  | some 'A' => parse_fplan_meta_A line
  | some 'I' => parse_fplan_meta_I line
  | some 'L' => parse_fplan_meta_L line
  | some 'R' => parse_fplan_meta_R line
  | _ => .ok id

/-- The two scanner states of parse_fplan. -/
inductive PMode where
  | meta
  | data
deriving DecidableEq

/-- Finalization of a pending trip on the meta-to-data transition:
write_route from the accumulated meta, then write_trip with its result. -/
def finalize_trip (meta : Meta) (st : St) : Except PyErr Int × St :=
  match write_route meta st with
  | (.error e, st1) => (.error e, st1)
  | (.ok rid, st1) => write_trip rid meta st1

/-- The head of the data branch: when the scanner is not yet in the data
state, finalize the pending trip and reset the sequence counter to 0;
otherwise keep the current trip id and counter. -/
def fplan_enter_data (mode : PMode) (meta : Meta) (st : St) (tid : Int)
    (seq : Nat) : Except PyErr (Int × Nat) × St :=
  if mode = PMode.data then (.ok (tid, seq), st)
  else
    match finalize_trip meta st with
    | (.error e, st1) => (.error e, st1)
    | (.ok tid1, st1) => (.ok (tid1, 0), st1)

/-- Line loop of parse_fplan, carrying the scanner state, the meta
accumulator, the per-trip sequence counter and the current trip id. -/
def parse_fplan_go : List String → St → PMode → Meta → Nat → Int →
    Except PyErr Unit × St
  | [], st, _, _, _, _ => (.ok (), st)
  | line :: rest, st, mode, meta, seq, tid =>
    if pyStartsWith line ("%") then parse_fplan_go rest st mode meta seq tid
    else if pyStartsWith line ("*") then
      let meta1 := if mode ≠ PMode.meta then {} else meta
      match parse_fplan_meta line with
      | .error e => (.error e, st)
      | .ok upd => parse_fplan_go rest st PMode.meta (upd meta1) seq tid
    else
      match fplan_enter_data mode meta st tid seq with
      | (.error e, st1) => (.error e, st1)
      | (.ok p, st1) =>
        let seq1 := p.2 + 1
        match parse_schedule line with
        | .error e => (.error e, st1)
        | .ok sl =>
          match write_stop_time p.1 seq1 sl st1 with
          | (.error e, st2) => (.error e, st2)
          | (.ok _, st2) => parse_fplan_go rest st2 PMode.data meta seq1 p.1

/-- Hafas2GTFS.parse_fplan: initial state meta with an empty accumulator
(the sequence counter and trip id locals are first assigned on the first
transition into data, so their initial values are never observable). -/
def parse_fplan (lines : List String) (st : St) : Except PyErr Unit × St :=
  parse_fplan_go lines st PMode.meta {} 0 0

/-- Hafas2GTFS.create, after the output files are opened: the fixed pipeline
over the five input files, aborting at the first error. -/
def create (proj : String → String → String × String)
    (eck bitf koord bahn fpl : List String) : Except PyErr Unit × St :=
  match parse_eckdaten eck initSt with
  | (.error e, st) => (.error e, st)
  | (.ok _, st0) =>
    let st1 := write_agency st0
    match parse_bitfeld bitf st1 with
    | (.error e, st) => (.error e, st)
    | (.ok _, st2) =>
      let st3 := write_service_dates (write_service st2)
      match parse_bfkoord proj koord st3 with
      | (.error e, st) => (.error e, st)
      | (.ok _, st4) =>
        match parse_bahnhof bahn st4 with
        | (.error e, st) => (.error e, st)
        | (.ok _, st5) => parse_fplan fpl st5

/-- Route ids of the routes.txt rows in the log, in append order. -/
def routeRowIds (log : List Event) : List RouteId :=
  log.filterMap (fun e =>
    match e with
    | .routeRow r => some r.route_id
    | _ => none)

/-- Stop ids of the stops.txt rows in the log, in append order. -/
def stopRowIds (log : List Event) : List Int :=
  log.filterMap (fun e =>
    match e with
    | .stopRow r => some r.stop_id
    | _ => none)

/-- Walk the log splitting stop_times sequence numbers into per-trip blocks:
every trips.txt row opens a new block, every stop_times.txt row extends the
current one. -/
def seqBlocksAux : List Event → List (List Nat) → List (List Nat)
  | [], acc => acc
  | e :: rest, acc =>
    match e with
    | .tripRow _ => seqBlocksAux rest (acc ++ [[]])
    | .stopTimeRow r =>
      seqBlocksAux rest (acc.dropLast ++ [acc.getLastD [] ++ [r.stop_sequence]])
    | _ => seqBlocksAux rest acc

/-- The per-trip blocks of stop_times sequence numbers in a log. -/
def seqBlocks (log : List Event) : List (List Nat) :=
  seqBlocksAux log [[]]

/-- The counter-assigned ids among a list of resolved route ids. -/
def autoIds (rs : List RouteId) : List Nat :=
  rs.filterMap (fun r =>
    match r with
    | .num n => some n
    | _ => none)

/-- Run write_route over a list of accumulated metas (one per finalized
trip), collecting the resolved ids, stopping at the first abort. -/
def runRoutes : List Meta → St → List RouteId × St
  | [], st => ([], st)
  | m :: ms, st =>
    match write_route m st with
    | (.ok rid, st1) =>
      let p := runRoutes ms st1
      (rid :: p.1, p.2)
    | (.error _, st1) => ([], st1)

/-- Stop ids successfully decoded from the coordinate file lines. -/
def koordIds (lines : List String) : List Int :=
  lines.filterMap (fun l => (pyInt (pyStrip (strSlice l 0 7))).toOption)

/-- Stop ids successfully decoded from the names file lines. -/
def bahnIds (lines : List String) : List Int :=
  lines.filterMap (fun l => (pyInt (pyStrip (strSlice l 0 7))).toOption)

/-- Trip ids of the trips.txt rows in the log, in append order. -/
def tripRowIds (log : List Event) : List Int :=
  log.filterMap (fun e =>
    match e with
    | .tripRow r => some r.trip_id
    | _ => none)

/-- The route id a finalization resolves before deduplication: the explicit
line number when present, else the bumped counter value. -/
def resolved_route_id (meta : Meta) (st : St) : RouteId :=
  match meta.line_number with
  | some s => RouteId.str s
  | none => RouteId.num (st.routeCounter + 1)

/-- Events that touch neither trips.txt nor stop_times.txt. -/
def noTripStop (e : Event) : Bool :=
  match e with
  | .tripRow _ => false
  | .stopTimeRow _ => false
  | _ => true

/-- Route invariant: routes.txt row ids are distinct and all registered. -/
def RInv (st : St) : Prop :=
  (routeRowIds st.log).Nodup ∧ ∀ i ∈ routeRowIds st.log, i ∈ st.routes

/-- Stop invariant: stops.txt row ids are distinct and their registry
records are marked done. -/
def SInv (st : St) : Prop :=
  (stopRowIds st.log).Nodup ∧
    ∀ i ∈ stopRowIds st.log, (stopsGet st.stops i).done = true

/-- Every per-trip block of sequence numbers reads 1..N. -/
def Ramp (log : List Event) : Prop :=
  ∀ b ∈ seqBlocks log, b = List.range' 1 b.length

/-- The block of the most recently opened trip. -/
def lastBlock (log : List Event) : List Nat :=
  (seqBlocks log).getLastD []

/-- 2020-01-01 (spec scenario period start). -/
def dateA : Date := { day := 1, month := 1, year := 2020 }

/-- 2020-01-31 (spec scenario period end). -/
def dateB : Date := { day := 31, month := 1, year := 2020 }

/-- State after parsing the scenario period 01.01.2020 / 31.01.2020. -/
def stPeriodJan : St := { initSt with start := dateA, endD := dateB }

/-- State after parsing a one-day period (start equal to end). -/
def stPeriodOneDay : St := { initSt with start := dateA, endD := dateA }

/-- A calendar line whose payload has two guard bits, thirty-one set days,
two guard bits and three bits of hex padding (36 bits in all). -/
def bitfeldLine31 : String := "000001FFFFFFFF8"

/-- A calendar line with a six-digit service id and no payload at all. -/
def bitfeldLineEmpty : String := "000001"

/-- A schedule data line with arrival 06:35 and departure 07:00. -/
def dataLineFull : String := "0000669 Refrath              0635 0700"

/-- A schedule data line with both time fields blank. -/
def dataLineNoTimes : String := "0000669 Refrath"

/-- A registry state in which stop 669 is fully populated and not yet
emitted. -/
def stStop669 : St :=
  { initSt with
      stops := [(669, { name := some ("Refrath"), lat := some ("1.0")
                        lon := some ("2.0") })] }

/-- Period file of the end-to-end runs. -/
def eckLines : List String := ["01.01.2020", "31.01.2020"]

/-- Coordinates file of the end-to-end runs. -/
def koordLines : List String := ["0000669 2567526.00 5644934.00 Refrath"]

/-- Names file of the end-to-end runs. -/
def bahnLines : List String := ["0000669 VRS Refrath"]

/-- Schedule file with two trips: the first meta block carries Z, G and L
lines; the second block repeats the same explicit line number 100 but has no
G line at all. -/
def fplanLinesC8 : List String :=
  ["*Z 00001 000001", "*G BUS", "*L 100", dataLineFull,
   "*Z 00002 000001", "*L 100", dataLineFull]

/-- An accumulated meta without an explicit line number. -/
def metaAuto : Meta := { service_number := some 1, mean_of_transport := some ("BUS") }

/-- An accumulated meta with the explicit line number 100. -/
def metaLine100 : Meta :=
  { service_number := some 2, mean_of_transport := some ("BUS")
    line_number := some ("100") }

/-- An accumulated meta with a service number and an explicit line number
but no transport mode (no G line was seen). -/
def metaNoG : Meta := { service_number := some 2, line_number := some ("100") }

/-- A run state whose counter is about to produce the value 100. -/
def stCounter99 : St := { initSt with routeCounter := 99 }

/-! ## Basic lemmas about the log observations -/

theorem nodup_snoc {α : Type} [DecidableEq α] (l : List α) (a : α) :
    (l ++ [a]).Nodup ↔ l.Nodup ∧ a ∉ l := by
  simp [List.nodup_append]

theorem range'_snoc (n : Nat) :
    List.range' 1 n ++ [n + 1] = List.range' 1 (n + 1) := by
  rw [List.range'_concat]
  simp [Nat.add_comm]

theorem routeRowIds_append (l1 l2 : List Event) :
    routeRowIds (l1 ++ l2) = routeRowIds l1 ++ routeRowIds l2 := by
  simp [routeRowIds, List.filterMap_append]

theorem stopRowIds_append (l1 l2 : List Event) :
    stopRowIds (l1 ++ l2) = stopRowIds l1 ++ stopRowIds l2 := by
  simp [stopRowIds, List.filterMap_append]

theorem tripRowIds_append (l1 l2 : List Event) :
    tripRowIds (l1 ++ l2) = tripRowIds l1 ++ tripRowIds l2 := by
  simp [tripRowIds, List.filterMap_append]

theorem seqBlocksAux_append (l1 l2 : List Event) (acc : List (List Nat)) :
    seqBlocksAux (l1 ++ l2) acc = seqBlocksAux l2 (seqBlocksAux l1 acc) := by
  induction l1 generalizing acc with
  | nil => simp [seqBlocksAux]
  | cons e rest ih =>
    cases e <;> simp [seqBlocksAux, ih]

theorem seqBlocks_snoc_trip (log : List Event) (r : TripRow) :
    seqBlocks (log ++ [Event.tripRow r]) = seqBlocks log ++ [[]] := by
  simp [seqBlocks, seqBlocksAux_append, seqBlocksAux]

theorem seqBlocks_snoc_stopTime (log : List Event) (r : StopTimeRow) :
    seqBlocks (log ++ [Event.stopTimeRow r]) =
      (seqBlocks log).dropLast ++ [lastBlock log ++ [r.stop_sequence]] := by
  simp [seqBlocks, seqBlocksAux_append, seqBlocksAux, lastBlock]

theorem seqBlocks_snoc_other (log : List Event) (e : Event)
    (h : noTripStop e = true) :
    seqBlocks (log ++ [e]) = seqBlocks log := by
  cases e <;> simp_all [noTripStop, seqBlocks, seqBlocksAux_append, seqBlocksAux]

theorem seqBlocks_append_inert (log : List Event) (l : List Event)
    (h : ∀ e ∈ l, noTripStop e = true) :
    seqBlocks (log ++ l) = seqBlocks log := by
  induction l generalizing log with
  | nil => simp
  | cons e rest ih =>
    have he : noTripStop e = true := h e (by simp)
    have hrest : ∀ x ∈ rest, noTripStop x = true := fun x hx => h x (by simp [hx])
    have : log ++ e :: rest = (log ++ [e]) ++ rest := by simp
    rw [this, ih (log ++ [e]) hrest, seqBlocks_snoc_other log e he]

theorem routeRowIds_inert (l : List Event)
    (h : ∀ e ∈ l, noTripStop e = true ∧ (∀ r, e ≠ Event.routeRow r)) :
    routeRowIds l = [] := by
  induction l with
  | nil => rfl
  | cons e rest ih =>
    have he := h e (by simp)
    have hrest : ∀ x ∈ rest, noTripStop x = true ∧ ∀ r, x ≠ Event.routeRow r :=
      fun x hx => h x (by simp [hx])
    cases e <;> simp_all [routeRowIds]

theorem getLastD_snoc {α : Type} (l : List α) (a d : α) :
    (l ++ [a]).getLastD d = a := by
  cases l <;> simp [List.getLastD]

theorem stopsGet_stopsSet (stops : List (Int × StopData)) (id i : Int)
    (sd : StopData) :
    stopsGet (stopsSet stops id sd) i =
      if id = i then sd else stopsGet stops i := by
  induction stops with
  | nil =>
    by_cases h : id = i <;> simp [stopsGet, stopsSet, h]
  | cons p rest ih =>
    by_cases h1 : p.1 = id
    · by_cases h2 : id = i <;> simp [stopsGet, stopsSet, h1, h2]
    · by_cases h2 : id = i
      · subst h2
        simp [stopsGet, stopsSet, h1, ih]
      · have h2s : ¬i = id := fun hh => h2 hh.symm
        by_cases h3 : p.1 = i <;> simp [stopsGet, stopsSet, h1, h2, h2s, h3, ih]

/-! ## Characterization of the sink operations -/

theorem write_route_eq (m : Meta) (st : St) :
    write_route m st =
      (let rid := resolved_route_id m st
       let c := match m.line_number with
                | some _ => st.routeCounter
                | none => st.routeCounter + 1
       let st1 : St := { st with routeCounter := c }
       if rid ∈ st.routes then (.ok rid, st1)
       else
         match m.mean_of_transport with
         | none => (.error .keyError, { st1 with routes := rid :: st.routes })
         | some mo =>
           (.ok rid,
             { st1 with
                 routes := rid :: st.routes
                 log := st.log ++ [Event.routeRow
                   { route_id := rid, agency_id := st.agency_id
                     route_short_name := rid, route_long_name := rid
                     route_desc := "", route_type := toString (routeTypesGet mo 0)
                     route_url := "", route_color := ""
                     route_text_color := "" }] })) := by
  rcases hl : m.line_number with _ | s <;>
    rcases hm : m.mean_of_transport with _ | mo <;>
      simp [write_route, emitRoute, resolved_route_id, hl, hm]

theorem write_route_stops (m : Meta) (st : St) :
    ((write_route m st).2).stops = st.stops := by
  rw [write_route_eq]
  cases m.line_number <;> cases m.mean_of_transport <;> dsimp <;> split <;> rfl

theorem write_route_counter (m : Meta) (st : St) :
    ((write_route m st).2).routeCounter =
      (match m.line_number with
       | some _ => st.routeCounter
       | none => st.routeCounter + 1) := by
  rw [write_route_eq]
  cases m.line_number <;> cases m.mean_of_transport <;> dsimp <;> split <;> rfl

theorem write_route_routes_sub (m : Meta) (st : St) :
    st.routes ⊆ ((write_route m st).2).routes := by
  rw [write_route_eq]
  cases m.line_number <;> cases m.mean_of_transport <;> dsimp <;> split <;>
    intro x hx <;> simp [hx]


theorem write_route_ok_val (m : Meta) (st : St) (r : RouteId)
    (h : (write_route m st).1 = .ok r) : r = resolved_route_id m st := by
  rcases hl : m.line_number with _ | s <;>
    rcases hm : m.mean_of_transport with _ | mo <;>
      simp [write_route, emitRoute, resolved_route_id, hl, hm] at h ⊢ <;>
        revert h <;> split <;> intro h <;> simp_all

theorem write_route_log (m : Meta) (st : St) :
    ((write_route m st).2).log = st.log ∨
      ∃ mo, ((write_route m st).2).log = st.log ++
        [Event.routeRow
          { route_id := resolved_route_id m st, agency_id := st.agency_id
            route_short_name := resolved_route_id m st
            route_long_name := resolved_route_id m st
            route_desc := ""
            route_type := toString (routeTypesGet mo 0)
            route_url := "", route_color := "", route_text_color := "" }] ∧
        resolved_route_id m st ∉ st.routes ∧
        resolved_route_id m st ∈ ((write_route m st).2).routes := by
  rcases hl : m.line_number with _ | s <;>
    rcases hm : m.mean_of_transport with _ | mo <;>
      simp [write_route, emitRoute, resolved_route_id, hl, hm] <;>
        split <;> simp_all <;> exact ⟨mo, rfl⟩

theorem routeRowIds_single (r : RouteRow) :
    routeRowIds [Event.routeRow r] = [r.route_id] := rfl

theorem stopRowIds_single_route (r : RouteRow) :
    stopRowIds [Event.routeRow r] = [] := rfl

theorem RInv_write_route (m : Meta) (st : St) (h : RInv st) :
    RInv (write_route m st).2 := by
  rcases write_route_log m st with hlog | ⟨mo, hlog, hnotin, hin⟩
  · refine ⟨?_, ?_⟩
    · rw [hlog]; exact h.1
    · intro i hi; rw [hlog] at hi
      exact write_route_routes_sub m st (h.2 i hi)
  · refine ⟨?_, ?_⟩
    · rw [hlog, routeRowIds_append, routeRowIds_single, nodup_snoc]
      exact ⟨h.1, fun hc => hnotin (h.2 _ hc)⟩
    · intro i hi
      rw [hlog, routeRowIds_append, routeRowIds_single] at hi
      rcases List.mem_append.mp hi with hi | hi
      · exact write_route_routes_sub m st (h.2 i hi)
      · rw [List.mem_singleton] at hi
        subst hi
        exact hin

theorem SInv_write_route (m : Meta) (st : St) (h : SInv st) :
    SInv (write_route m st).2 := by
  have hst := write_route_stops m st
  rcases write_route_log m st with hlog | ⟨mo, hlog, h1, h2⟩
  · refine ⟨?_, ?_⟩
    · rw [hlog]; exact h.1
    · intro i hi; rw [hlog] at hi; rw [hst]; exact h.2 i hi
  · refine ⟨?_, ?_⟩
    · rw [hlog, stopRowIds_append, stopRowIds_single_route]
      simpa using h.1
    · intro i hi
      rw [hlog, stopRowIds_append, stopRowIds_single_route] at hi
      rw [hst]
      exact h.2 i (by simpa using hi)


theorem seqBlocks_write_route (m : Meta) (st : St) :
    seqBlocks ((write_route m st).2).log = seqBlocks st.log := by
  rcases write_route_log m st with hlog | ⟨mo, hlog, _, _⟩
  · rw [hlog]
  · rw [hlog, seqBlocks_snoc_other]
    rfl

theorem write_trip_routes (rid : RouteId) (m : Meta) (st : St) :
    ((write_trip rid m st).2).routes = st.routes ∧
    ((write_trip rid m st).2).stops = st.stops ∧
    ((write_trip rid m st).2).routeCounter = st.routeCounter := by
  cases hs : m.service_number <;> simp [write_trip, hs]

theorem write_trip_err_st (rid : RouteId) (m : Meta) (st : St) (e : PyErr)
    (h : (write_trip rid m st).1 = .error e) : (write_trip rid m st).2 = st := by
  cases hs : m.service_number <;> simp [write_trip, hs] at h ⊢

theorem write_trip_log (rid : RouteId) (m : Meta) (st : St) :
    ((write_trip rid m st).2).log = st.log ∨
      ∃ r : TripRow, ((write_trip rid m st).2).log = st.log ++ [Event.tripRow r] := by
  cases hs : m.service_number <;> simp [write_trip, hs]

theorem write_trip_ok_log (rid : RouteId) (m : Meta) (st : St) (t : Int)
    (h : (write_trip rid m st).1 = .ok t) :
    ∃ r : TripRow, ((write_trip rid m st).2).log = st.log ++ [Event.tripRow r] := by
  cases hs : m.service_number <;> simp [write_trip, hs] at h ⊢

theorem RInv_write_trip (rid : RouteId) (m : Meta) (st : St) (h : RInv st) :
    RInv (write_trip rid m st).2 := by
  have hr := (write_trip_routes rid m st).1
  rcases write_trip_log rid m st with hlog | ⟨r, hlog⟩ <;>
    refine ⟨?_, ?_⟩
  · rw [hlog]; exact h.1
  · intro i hi; rw [hlog] at hi; rw [hr]; exact h.2 i hi
  · rw [hlog, routeRowIds_append]
    simpa [routeRowIds] using h.1
  · intro i hi
    rw [hlog, routeRowIds_append] at hi
    rw [hr]
    exact h.2 i (by simpa [routeRowIds] using hi)

theorem SInv_write_trip (rid : RouteId) (m : Meta) (st : St) (h : SInv st) :
    SInv (write_trip rid m st).2 := by
  have hs := (write_trip_routes rid m st).2.1
  rcases write_trip_log rid m st with hlog | ⟨r, hlog⟩ <;>
    refine ⟨?_, ?_⟩
  · rw [hlog]; exact h.1
  · intro i hi; rw [hlog] at hi; rw [hs]; exact h.2 i hi
  · rw [hlog, stopRowIds_append]
    simpa [stopRowIds] using h.1
  · intro i hi
    rw [hlog, stopRowIds_append] at hi
    rw [hs]
    exact h.2 i (by simpa [stopRowIds] using hi)

theorem seqBlocks_write_trip_ok (rid : RouteId) (m : Meta) (st : St) (t : Int)
    (h : (write_trip rid m st).1 = .ok t) :
    seqBlocks ((write_trip rid m st).2).log = seqBlocks st.log ++ [[]] := by
  rcases write_trip_ok_log rid m st t h with ⟨r, hlog⟩
  rw [hlog, seqBlocks_snoc_trip]

theorem write_stop_done_noop (id : Int) (st : St)
    (h : (stopsGet st.stops id).done = true) :
    write_stop id st = (.ok id, st) := by
  simp [write_stop, h]

theorem write_stop_err_st (id : Int) (st : St) (e : PyErr)
    (h : (write_stop id st).1 = .error e) : (write_stop id st).2 = st := by
  rcases hdone : (stopsGet st.stops id).done with _ | _
  · rcases hn : (stopsGet st.stops id).name <;>
      rcases hla : (stopsGet st.stops id).lat <;>
        rcases hlo : (stopsGet st.stops id).lon <;>
          simp [write_stop, hdone, hn, hla, hlo] at h ⊢
  · simp [write_stop, hdone] at h

theorem write_stop_routes (id : Int) (st : St) :
    ((write_stop id st).2).routes = st.routes ∧
    ((write_stop id st).2).routeCounter = st.routeCounter := by
  rcases hdone : (stopsGet st.stops id).done with _ | _
  · rcases hn : (stopsGet st.stops id).name <;>
      rcases hla : (stopsGet st.stops id).lat <;>
        rcases hlo : (stopsGet st.stops id).lon <;>
          simp [write_stop, hdone, hn, hla, hlo]
  · simp [write_stop, hdone]

theorem write_stop_log (id : Int) (st : St) :
    ((write_stop id st).2).log = st.log ∨
      ∃ r : StopRow, ((write_stop id st).2).log = st.log ++ [Event.stopRow r] := by
  rcases hdone : (stopsGet st.stops id).done with _ | _
  · rcases hn : (stopsGet st.stops id).name <;>
      rcases hla : (stopsGet st.stops id).lat <;>
        rcases hlo : (stopsGet st.stops id).lon <;>
          simp [write_stop, hdone, hn, hla, hlo]
  · simp [write_stop, hdone]

theorem stopRowIds_single (r : StopRow) :
    stopRowIds [Event.stopRow r] = [r.stop_id] := rfl

theorem SInv_write_stop (id : Int) (st : St) (h : SInv st) :
    SInv (write_stop id st).2 := by
  rcases hdone : (stopsGet st.stops id).done with _ | _
  case true =>
    rw [write_stop_done_noop id st hdone]
    exact h
  case false =>
    rcases hn : (stopsGet st.stops id).name with _ | nm
    · simpa [write_stop, hdone, hn] using h
    rcases hla : (stopsGet st.stops id).lat with _ | la
    · simpa [write_stop, hdone, hn, hla] using h
    rcases hlo : (stopsGet st.stops id).lon with _ | lo
    · simpa [write_stop, hdone, hn, hla, hlo] using h
    have hres : (write_stop id st).2 =
        { st with
            log := st.log ++ [Event.stopRow
              { stop_id := id, stop_code := id, stop_name := nm
                stop_desc := "", stop_lat := la, stop_lon := lo
                zone_id := none, stop_url := "", location_type := "0"
                parent_station := none }]
            stops := stopsSet st.stops id
              { stopsGet st.stops id with done := true } } := by
      simp [write_stop, hdone, hn, hla, hlo]
    rw [hres]
    refine ⟨?_, ?_⟩
    · show (stopRowIds (st.log ++ _)).Nodup
      rw [stopRowIds_append, stopRowIds_single, nodup_snoc]
      refine ⟨h.1, fun hc => ?_⟩
      have := h.2 _ hc
      simp_all
    · intro i hi
      show (stopsGet (stopsSet st.stops id _) i).done = true
      replace hi : i ∈ stopRowIds (st.log ++ _) := hi
      rw [stopRowIds_append, stopRowIds_single] at hi
      rw [stopsGet_stopsSet]
      rcases List.mem_append.mp hi with hi | hi
      · by_cases hid : id = i
        · simp [hid]
        · simp only [hid, if_false]
          exact h.2 i hi
      · rw [List.mem_singleton] at hi
        subst hi
        simp

theorem RInv_write_stop (id : Int) (st : St) (h : RInv st) :
    RInv (write_stop id st).2 := by
  have hr := (write_stop_routes id st).1
  rcases write_stop_log id st with hlog | ⟨r, hlog⟩ <;>
    refine ⟨?_, ?_⟩
  · rw [hlog]; exact h.1
  · intro i hi; rw [hlog] at hi; rw [hr]; exact h.2 i hi
  · rw [hlog, routeRowIds_append]
    simpa [routeRowIds] using h.1
  · intro i hi
    rw [hlog, routeRowIds_append] at hi
    rw [hr]
    exact h.2 i (by simpa [routeRowIds] using hi)

theorem seqBlocks_write_stop (id : Int) (st : St) :
    seqBlocks ((write_stop id st).2).log = seqBlocks st.log := by
  rcases write_stop_log id st with hlog | ⟨r, hlog⟩
  · rw [hlog]
  · rw [hlog, seqBlocks_snoc_other]
    rfl

theorem write_stop_time_err_st (t : Int) (q : Nat) (sl : StopLine) (st : St)
    (e : PyErr) (h : (write_stop_time t q sl st).1 = .error e) :
    (write_stop_time t q sl st).2 = st := by
  unfold write_stop_time at h ⊢
  rcases hws : write_stop sl.stop_id st with ⟨res, st1⟩
  rcases res with e1 | v
  · have hst : st1 = st := by
      have h2 := write_stop_err_st sl.stop_id st e1 (by rw [hws])
      rw [hws] at h2
      exact h2
    exact hst
  · rw [hws] at h
    simp at h

theorem write_stop_time_ok_log (t : Int) (q : Nat) (sl : StopLine) (st : St)
    (h : (write_stop_time t q sl st).1 = .ok ()) :
    ∃ r : StopTimeRow, r.stop_sequence = q ∧
      ((write_stop_time t q sl st).2).log =
        ((write_stop sl.stop_id st).2).log ++ [Event.stopTimeRow r] := by
  unfold write_stop_time at h ⊢
  rcases hws : write_stop sl.stop_id st with ⟨res, st1⟩
  rcases res with e1 | v
  · rw [hws] at h
    simp at h
  · exact ⟨_, rfl, rfl⟩

theorem RInv_write_stop_time (t : Int) (q : Nat) (sl : StopLine) (st : St)
    (h : RInv st) : RInv (write_stop_time t q sl st).2 := by
  have h1 := RInv_write_stop sl.stop_id st h
  unfold write_stop_time
  rcases hws : write_stop sl.stop_id st with ⟨res, st1⟩
  rw [hws] at h1
  rcases res with e1 | v
  · exact h1
  · refine ⟨?_, ?_⟩
    · show (routeRowIds (st1.log ++ _)).Nodup
      rw [routeRowIds_append]
      simpa [routeRowIds] using h1.1
    · intro i hi
      replace hi : i ∈ routeRowIds (st1.log ++ _) := hi
      rw [routeRowIds_append] at hi
      exact h1.2 i (by simpa [routeRowIds] using hi)

theorem SInv_write_stop_time (t : Int) (q : Nat) (sl : StopLine) (st : St)
    (h : SInv st) : SInv (write_stop_time t q sl st).2 := by
  have h1 := SInv_write_stop sl.stop_id st h
  unfold write_stop_time
  rcases hws : write_stop sl.stop_id st with ⟨res, st1⟩
  rw [hws] at h1
  rcases res with e1 | v
  · exact h1
  · refine ⟨?_, ?_⟩
    · show (stopRowIds (st1.log ++ _)).Nodup
      rw [stopRowIds_append]
      simpa [stopRowIds] using h1.1
    · intro i hi
      replace hi : i ∈ stopRowIds (st1.log ++ _) := hi
      rw [stopRowIds_append] at hi
      exact h1.2 i (by simpa [stopRowIds] using hi)

theorem seqBlocks_write_stop_time_ok (t : Int) (q : Nat) (sl : StopLine)
    (st : St) (h : (write_stop_time t q sl st).1 = .ok ()) :
    seqBlocks ((write_stop_time t q sl st).2).log =
      (seqBlocks st.log).dropLast ++ [lastBlock st.log ++ [q]] := by
  rcases write_stop_time_ok_log t q sl st h with ⟨r, hq, hlog⟩
  rw [hlog, seqBlocks_snoc_stopTime, hq]
  simp [lastBlock, seqBlocks_write_stop]

theorem RInv_finalize (m : Meta) (st : St) (h : RInv st) :
    RInv (finalize_trip m st).2 := by
  unfold finalize_trip
  have h1 := RInv_write_route m st h
  rcases hwr : write_route m st with ⟨res, st1⟩
  rw [hwr] at h1
  rcases res with e | rid
  · exact h1
  · exact RInv_write_trip rid m st1 h1

theorem SInv_finalize (m : Meta) (st : St) (h : SInv st) :
    SInv (finalize_trip m st).2 := by
  unfold finalize_trip
  have h1 := SInv_write_route m st h
  rcases hwr : write_route m st with ⟨res, st1⟩
  rw [hwr] at h1
  rcases res with e | rid
  · exact h1
  · exact SInv_write_trip rid m st1 h1

theorem seqBlocks_finalize_err (m : Meta) (st : St) (e : PyErr)
    (h : (finalize_trip m st).1 = .error e) :
    seqBlocks ((finalize_trip m st).2).log = seqBlocks st.log := by
  unfold finalize_trip at h ⊢
  have h1 := seqBlocks_write_route m st
  rcases hwr : write_route m st with ⟨res, st1⟩
  rw [hwr] at h1
  rcases res with e1 | rid
  · exact h1
  · rw [write_trip_err_st rid m st1 e]
    · exact h1
    · rw [hwr] at h
      exact h

theorem seqBlocks_finalize_ok (m : Meta) (st : St) (t : Int)
    (h : (finalize_trip m st).1 = .ok t) :
    seqBlocks ((finalize_trip m st).2).log = seqBlocks st.log ++ [[]] := by
  unfold finalize_trip at h ⊢
  have h1 := seqBlocks_write_route m st
  rcases hwr : write_route m st with ⟨res, st1⟩
  rw [hwr] at h1
  rcases res with e1 | rid
  · rw [hwr] at h
    simp at h
  · rw [hwr] at h
    rw [seqBlocks_write_trip_ok rid m st1 t h, h1]

theorem RInv_enter_data (mode : PMode) (m : Meta) (st : St) (tid : Int)
    (seq : Nat) (h : RInv st) : RInv (fplan_enter_data mode m st tid seq).2 := by
  unfold fplan_enter_data
  by_cases hm : mode = PMode.data
  · simp [hm]; exact h
  · simp [hm]
    have h1 := RInv_finalize m st h
    rcases hfin : finalize_trip m st with ⟨res, st1⟩
    rw [hfin] at h1
    rcases res with e | t <;> exact h1

theorem SInv_enter_data (mode : PMode) (m : Meta) (st : St) (tid : Int)
    (seq : Nat) (h : SInv st) : SInv (fplan_enter_data mode m st tid seq).2 := by
  unfold fplan_enter_data
  by_cases hm : mode = PMode.data
  · simp [hm]; exact h
  · simp [hm]
    have h1 := SInv_finalize m st h
    rcases hfin : finalize_trip m st with ⟨res, st1⟩
    rw [hfin] at h1
    rcases res with e | t <;> exact h1

theorem blocks_enter_data_ok (mode : PMode) (m : Meta) (st : St) (tid : Int)
    (seq : Nat) (p : Int × Nat)
    (h : (fplan_enter_data mode m st tid seq).1 = .ok p)
    (hD : mode = PMode.data → lastBlock st.log = List.range' 1 seq)
    (hB : Ramp st.log) :
    Ramp ((fplan_enter_data mode m st tid seq).2).log ∧
    lastBlock ((fplan_enter_data mode m st tid seq).2).log = List.range' 1 p.2 := by
  unfold fplan_enter_data at h ⊢
  by_cases hm : mode = PMode.data
  · simp only [hm, if_true, if_pos] at h ⊢
    have hp : p = (tid, seq) := by simpa using h.symm
    subst hp
    exact ⟨hB, hD hm⟩
  · simp only [hm, if_false, if_neg, not_false_iff] at h ⊢
    have hfinB := seqBlocks_finalize_err m st
    have hfinO := seqBlocks_finalize_ok m st
    rcases hfin : finalize_trip m st with ⟨res, st1⟩
    rw [hfin] at hfinB hfinO
    rcases res with e | t
    · rw [hfin] at h
      simp at h
    · rw [hfin] at h
      have hp : p = (t, 0) := by simpa using h.symm
      subst hp
      have hblocks : seqBlocks st1.log = seqBlocks st.log ++ [[]] :=
        hfinO t rfl
      refine ⟨?_, ?_⟩
      · intro b hb
        rw [hblocks] at hb
        rcases List.mem_append.mp hb with hb | hb
        · exact hB b hb
        · rw [List.mem_singleton] at hb
          subst hb
          rfl
      · show lastBlock st1.log = List.range' 1 0
        rw [lastBlock, hblocks, getLastD_snoc]
        rfl

theorem blocks_enter_data_err (mode : PMode) (m : Meta) (st : St) (tid : Int)
    (seq : Nat) (e : PyErr)
    (h : (fplan_enter_data mode m st tid seq).1 = .error e)
    (hB : Ramp st.log) :
    Ramp ((fplan_enter_data mode m st tid seq).2).log := by
  unfold fplan_enter_data at h ⊢
  by_cases hm : mode = PMode.data
  · simp [hm] at h
  · simp only [hm, if_false, if_neg, not_false_iff] at h ⊢
    have hfinB := seqBlocks_finalize_err m st
    rcases hfin : finalize_trip m st with ⟨res, st1⟩
    rw [hfin] at hfinB
    rcases res with e1 | t
    · show Ramp st1.log
      unfold Ramp
      rw [show seqBlocks st1.log = seqBlocks st.log from hfinB e1 rfl]
      exact hB
    · rw [hfin] at h
      simp at h

theorem parse_fplan_go_inv (lines : List String) :
    ∀ (st : St) (mode : PMode) (meta : Meta) (seq : Nat) (tid : Int),
      RInv st → SInv st → Ramp st.log →
      (mode = PMode.data → lastBlock st.log = List.range' 1 seq) →
      RInv (parse_fplan_go lines st mode meta seq tid).2 ∧
      SInv (parse_fplan_go lines st mode meta seq tid).2 ∧
      Ramp ((parse_fplan_go lines st mode meta seq tid).2).log := by
  induction lines with
  | nil =>
    intro st mode meta seq tid hR hS hB _
    exact ⟨hR, hS, hB⟩
  | cons line rest ih =>
    intro st mode meta seq tid hR hS hB hD
    simp only [parse_fplan_go]
    by_cases hpct : pyStartsWith line ("%") = true
    · rw [if_pos hpct]
      exact ih st mode meta seq tid hR hS hB hD
    · rw [if_neg hpct]
      by_cases hstar : pyStartsWith line ("*") = true
      · rw [if_pos hstar]
        rcases hm : parse_fplan_meta line with e | upd
        · exact ⟨hR, hS, hB⟩
        · exact ih st PMode.meta _ seq tid hR hS hB (fun hc => by cases hc)
      · rw [if_neg hstar]
        split
        · rename_i e st1 hed
          have hRe := RInv_enter_data mode meta st tid seq hR
          have hSe := SInv_enter_data mode meta st tid seq hS
          have hBe := blocks_enter_data_err mode meta st tid seq e (by rw [hed]) hB
          rw [hed] at hRe hSe hBe
          exact ⟨hRe, hSe, hBe⟩
        · rename_i p st1 hed
          have hRe := RInv_enter_data mode meta st tid seq hR
          have hSe := SInv_enter_data mode meta st tid seq hS
          have hBL := blocks_enter_data_ok mode meta st tid seq p (by rw [hed]) hD hB
          rw [hed] at hRe hSe hBL
          split
          · exact ⟨hRe, hSe, hBL.1⟩
          · rename_i sl hsch
            have hRw := RInv_write_stop_time p.1 (p.2 + 1) sl st1 hRe
            have hSw := SInv_write_stop_time p.1 (p.2 + 1) sl st1 hSe
            split
            · rename_i e st2 hwst
              rw [hwst] at hRw hSw
              have hst : st2 = st1 := by
                have h2 := write_stop_time_err_st p.1 (p.2 + 1) sl st1 e (by rw [hwst])
                rw [hwst] at h2
                exact h2
              refine ⟨hRw, hSw, ?_⟩
              rw [show (Except.error e, st2).2 = st2 from rfl, hst]
              exact hBL.1
            · rename_i u st2 hwst
              rw [hwst] at hRw hSw
              have hblocks : seqBlocks st2.log =
                  (seqBlocks st1.log).dropLast ++ [lastBlock st1.log ++ [p.2 + 1]] := by
                have h2 := seqBlocks_write_stop_time_ok p.1 (p.2 + 1) sl st1 (by rw [hwst])
                rw [hwst] at h2
                exact h2
              have hRamp2 : Ramp st2.log := by
                intro b hb
                rw [hblocks] at hb
                rcases List.mem_append.mp hb with hb | hb
                · exact hBL.1 b ((List.dropLast_sublist _).subset hb)
                · rw [List.mem_singleton] at hb
                  subst hb
                  rw [hBL.2, range'_snoc]
                  simp
              have hD2 : PMode.data = PMode.data →
                  lastBlock st2.log = List.range' 1 (p.2 + 1) := by
                intro _
                rw [lastBlock, hblocks, getLastD_snoc, hBL.2, range'_snoc]
              exact ih st2 PMode.data meta (p.2 + 1) p.1 hRw hSw hRamp2 hD2

theorem stopRowIds_inert (l : List Event)
    (h : ∀ e ∈ l, ∀ r, e ≠ Event.stopRow r) :
    stopRowIds l = [] := by
  induction l with
  | nil => rfl
  | cons e rest ih =>
    have he := h e (by simp)
    have hrest : ∀ x ∈ rest, ∀ r, x ≠ Event.stopRow r :=
      fun x hx => h x (by simp [hx])
    cases e <;> simp_all [stopRowIds]

theorem inv_transfer (st st2 : St) (l : List Event)
    (hlog : st2.log = st.log ++ l)
    (hl : ∀ e ∈ l, noTripStop e = true ∧ (∀ r, e ≠ Event.routeRow r) ∧
      (∀ r, e ≠ Event.stopRow r))
    (hro : st.routes ⊆ st2.routes)
    (hdone : ∀ i, (stopsGet st.stops i).done = true →
      (stopsGet st2.stops i).done = true) :
    (RInv st → RInv st2) ∧ (SInv st → SInv st2) ∧ (Ramp st.log → Ramp st2.log) := by
  have hrids : routeRowIds l = [] :=
    routeRowIds_inert l (fun e he => ⟨(hl e he).1, (hl e he).2.1⟩)
  have hsids : stopRowIds l = [] :=
    stopRowIds_inert l (fun e he => (hl e he).2.2)
  have hseq : seqBlocks st2.log = seqBlocks st.log := by
    rw [hlog]
    exact seqBlocks_append_inert _ l (fun e he => (hl e he).1)
  refine ⟨fun h => ⟨?_, ?_⟩, fun h => ⟨?_, ?_⟩, fun h => ?_⟩
  · rw [show routeRowIds st2.log = routeRowIds st.log by
      rw [hlog, routeRowIds_append, hrids, List.append_nil]]
    exact h.1
  · intro i hi
    rw [show routeRowIds st2.log = routeRowIds st.log by
      rw [hlog, routeRowIds_append, hrids, List.append_nil]] at hi
    exact hro (h.2 i hi)
  · rw [show stopRowIds st2.log = stopRowIds st.log by
      rw [hlog, stopRowIds_append, hsids, List.append_nil]]
    exact h.1
  · intro i hi
    rw [show stopRowIds st2.log = stopRowIds st.log by
      rw [hlog, stopRowIds_append, hsids, List.append_nil]] at hi
    exact hdone i (h.2 i hi)
  · intro b hb
    rw [hseq] at hb
    exact h b hb

theorem parse_eckdaten_fields (lines : List String) (st : St) :
    ((parse_eckdaten lines st).2).log = st.log ∧
    ((parse_eckdaten lines st).2).routes = st.routes ∧
    ((parse_eckdaten lines st).2).stops = st.stops := by
  rcases lines with _ | ⟨l0, ls⟩
  · simp [parse_eckdaten]
  rcases ls with _ | ⟨l1, rest⟩
  · rcases hd0 : strptimeDmy l0 with e | d0 <;> simp [parse_eckdaten, hd0]
  · rcases hd0 : strptimeDmy l0 with e | d0 <;>
      rcases hd1 : strptimeDmy l1 with e1 | d1 <;> simp [parse_eckdaten, hd0, hd1]

theorem write_agency_fields (st : St) :
    (write_agency st).routes = st.routes ∧
    (write_agency st).stops = st.stops ∧
    ∃ r, (write_agency st).log = st.log ++ [Event.agencyRow r] := by
  simp [write_agency]

theorem parse_bitfeld_go_fields (day : Int) (lines : List String) (st : St) :
    ((parse_bitfeld_go day lines st).2).log = st.log ∧
    ((parse_bitfeld_go day lines st).2).routes = st.routes ∧
    ((parse_bitfeld_go day lines st).2).stops = st.stops := by
  induction lines generalizing st with
  | nil => simp [parse_bitfeld_go]
  | cons l rest ih =>
    unfold parse_bitfeld_go
    rcases hp : parse_bitfeld_line day l with e | p
    · simp
    · simpa using ih _

theorem parse_bitfeld_fields (lines : List String) (st : St) :
    ((parse_bitfeld lines st).2).log = st.log ∧
    ((parse_bitfeld lines st).2).routes = st.routes ∧
    ((parse_bitfeld lines st).2).stops = st.stops := by
  unfold parse_bitfeld
  exact parse_bitfeld_go_fields _ lines _

theorem write_service_fields (st : St) :
    (write_service st).routes = st.routes ∧
    (write_service st).stops = st.stops ∧
    ∃ l, (write_service st).log = st.log ++ l ∧
      ∀ e ∈ l, ∃ r, e = Event.calendarRow r := by
  refine ⟨rfl, rfl,
    [fullServiceRow st ("0")] ++
      st.services.map (fun p => fullServiceRow st (toString p.1)), ?_, ?_⟩
  · simp [write_service]
  intro e he
  rcases List.mem_append.mp he with he | he
  · rw [List.mem_singleton] at he
    exact ⟨_, he⟩
  · rcases List.mem_map.mp he with ⟨p, _, hp⟩
    exact ⟨_, hp.symm⟩

theorem write_service_dates_fields (st : St) :
    (write_service_dates st).routes = st.routes ∧
    (write_service_dates st).stops = st.stops ∧
    ∃ l, (write_service_dates st).log = st.log ++ l ∧
      ∀ e ∈ l, ∃ r, e = Event.calendarDateRow r := by
  refine ⟨rfl, rfl, _, rfl, ?_⟩
  intro e he
  replace he : e ∈ (st.services.map (fun p =>
    p.2.enum.filterMap (fun q =>
      if q.2 then
        some (Event.calendarDateRow
          { service_id := p.1
            date := dateYmd (civilFromDays (st.start.toOrd + q.1))
            exception_type := 1 })
      else none))).flatten := he
  rcases List.mem_flatten.mp he with ⟨sub, hsub, hesub⟩
  rcases List.mem_map.mp hsub with ⟨p, _, hp⟩
  subst hp
  rcases List.mem_filterMap.mp hesub with ⟨q, _, hq⟩
  revert hq
  split
  · intro hq
    rw [Option.some_inj] at hq
    exact ⟨_, hq.symm⟩
  · intro hq
    cases hq

theorem parse_bfkoord_fields (proj : String → String → String × String)
    (lines : List String) (st : St) :
    ((parse_bfkoord proj lines st).2).log = st.log ∧
    ((parse_bfkoord proj lines st).2).routes = st.routes ∧
    ∀ i, (stopsGet ((parse_bfkoord proj lines st).2).stops i).name =
           (stopsGet st.stops i).name ∧
         (stopsGet ((parse_bfkoord proj lines st).2).stops i).done =
           (stopsGet st.stops i).done := by
  induction lines generalizing st with
  | nil => simp [parse_bfkoord]
  | cons line rest ih =>
    unfold parse_bfkoord
    rcases hsid : pyInt (pyStrip (strSlice line 0 7)) with e | sid
    · simp
    · by_cases hx : isPyFloat (pyStrip (strSlice line 8 18)) = true
      case neg => simp [hx]
      by_cases hy : isPyFloat (pyStrip (strSlice line 19 29)) = true
      case neg => simp [hx, hy]
      simp only [hx, hy, if_true]
      have hrec := ih { st with
        stops := stopsSet st.stops sid
          ({ stopsGet st.stops sid with
              lat := some (proj (pyStrip (strSlice line 8 18))
                (pyStrip (strSlice line 19 29))).1
              lon := some (proj (pyStrip (strSlice line 8 18))
                (pyStrip (strSlice line 19 29))).2 }) }
      refine ⟨hrec.1, hrec.2.1, fun i => ?_⟩
      have hone := hrec.2.2 i
      have hname : (stopsGet (stopsSet st.stops sid
          { stopsGet st.stops sid with
              lat := some (proj (pyStrip (strSlice line 8 18))
                (pyStrip (strSlice line 19 29))).1
              lon := some (proj (pyStrip (strSlice line 8 18))
                (pyStrip (strSlice line 19 29))).2 }) i).name =
          (stopsGet st.stops i).name := by
        rw [stopsGet_stopsSet]
        by_cases hii : sid = i
        · subst hii
          simp
        · simp [hii]
      have hdone : (stopsGet (stopsSet st.stops sid
          { stopsGet st.stops sid with
              lat := some (proj (pyStrip (strSlice line 8 18))
                (pyStrip (strSlice line 19 29))).1
              lon := some (proj (pyStrip (strSlice line 8 18))
                (pyStrip (strSlice line 19 29))).2 }) i).done =
          (stopsGet st.stops i).done := by
        rw [stopsGet_stopsSet]
        by_cases hii : sid = i
        · subst hii
          simp
        · simp [hii]
      exact ⟨hone.1.trans hname, hone.2.trans hdone⟩

theorem koordIds_cons_ok (line : String) (rest : List String) (sid : Int)
    (h : pyInt (pyStrip (strSlice line 0 7)) = .ok sid) :
    koordIds (line :: rest) = sid :: koordIds rest := by
  simp [koordIds, h, Except.toOption]

theorem koordIds_cons_err (line : String) (rest : List String) (e : PyErr)
    (h : pyInt (pyStrip (strSlice line 0 7)) = .error e) :
    koordIds (line :: rest) = koordIds rest := by
  simp [koordIds, h, Except.toOption]

theorem parse_bfkoord_untouched (proj : String → String → String × String)
    (lines : List String) (st : St) (i : Int) (hi : i ∉ koordIds lines) :
    stopsGet ((parse_bfkoord proj lines st).2).stops i = stopsGet st.stops i := by
  induction lines generalizing st with
  | nil => simp [parse_bfkoord]
  | cons line rest ih =>
    unfold parse_bfkoord
    rcases hsid : pyInt (pyStrip (strSlice line 0 7)) with e | sid
    · rfl
    · rw [koordIds_cons_ok line rest sid hsid] at hi
      have hne : ¬sid = i := fun hc => hi (by rw [hc]; exact List.mem_cons_self _ _)
      have hrest : i ∉ koordIds rest := fun hc => hi (List.mem_cons_of_mem _ hc)
      by_cases hx : isPyFloat (pyStrip (strSlice line 8 18)) = true
      case neg => simp [hx]
      by_cases hy : isPyFloat (pyStrip (strSlice line 19 29)) = true
      case neg => simp [hx, hy]
      simp only [hx, hy, if_true]
      rw [ih _ hrest]
      rw [show ({ st with
        stops := stopsSet st.stops sid
          ({ stopsGet st.stops sid with
              lat := some (proj (pyStrip (strSlice line 8 18))
                (pyStrip (strSlice line 19 29))).1
              lon := some (proj (pyStrip (strSlice line 8 18))
                (pyStrip (strSlice line 19 29))).2 }) } : St).stops =
        stopsSet st.stops sid
          ({ stopsGet st.stops sid with
              lat := some (proj (pyStrip (strSlice line 8 18))
                (pyStrip (strSlice line 19 29))).1
              lon := some (proj (pyStrip (strSlice line 8 18))
                (pyStrip (strSlice line 19 29))).2 }) from rfl]
      rw [stopsGet_stopsSet]
      simp [hne]

theorem parse_bahnhof_fields (lines : List String) (st : St) :
    ((parse_bahnhof lines st).2).log = st.log ∧
    ((parse_bahnhof lines st).2).routes = st.routes ∧
    ∀ i, (stopsGet ((parse_bahnhof lines st).2).stops i).lat =
           (stopsGet st.stops i).lat ∧
         (stopsGet ((parse_bahnhof lines st).2).stops i).lon =
           (stopsGet st.stops i).lon ∧
         (stopsGet ((parse_bahnhof lines st).2).stops i).done =
           (stopsGet st.stops i).done := by
  induction lines generalizing st with
  | nil => simp [parse_bahnhof]
  | cons line rest ih =>
    unfold parse_bahnhof
    rcases hsid : pyInt (pyStrip (strSlice line 0 7)) with e | sid
    · simp
    · have hrec := ih { st with
        stops := stopsSet st.stops sid
          ({ stopsGet st.stops sid with
              name := some (pyStrip (strDrop line 12))
              authority := some (strSlice line 8 11) }) }
      refine ⟨hrec.1, hrec.2.1, fun i => ?_⟩
      have hone := hrec.2.2 i
      have hstep : (stopsGet (stopsSet st.stops sid
          ({ stopsGet st.stops sid with
              name := some (pyStrip (strDrop line 12))
              authority := some (strSlice line 8 11) })) i).lat =
            (stopsGet st.stops i).lat ∧
          (stopsGet (stopsSet st.stops sid
          ({ stopsGet st.stops sid with
              name := some (pyStrip (strDrop line 12))
              authority := some (strSlice line 8 11) })) i).lon =
            (stopsGet st.stops i).lon ∧
          (stopsGet (stopsSet st.stops sid
          ({ stopsGet st.stops sid with
              name := some (pyStrip (strDrop line 12))
              authority := some (strSlice line 8 11) })) i).done =
            (stopsGet st.stops i).done := by
        rw [stopsGet_stopsSet]
        by_cases hii : sid = i
        · subst hii
          simp
        · simp [hii]
      exact ⟨hone.1.trans hstep.1, hone.2.1.trans hstep.2.1,
        hone.2.2.trans hstep.2.2⟩

theorem parse_bahnhof_untouched (lines : List String) (st : St) (i : Int)
    (hi : i ∉ bahnIds lines) :
    stopsGet ((parse_bahnhof lines st).2).stops i = stopsGet st.stops i := by
  induction lines generalizing st with
  | nil => simp [parse_bahnhof]
  | cons line rest ih =>
    unfold parse_bahnhof
    rcases hsid : pyInt (pyStrip (strSlice line 0 7)) with e | sid
    · rfl
    · have hcons : bahnIds (line :: rest) = sid :: bahnIds rest := by
        simp [bahnIds, hsid, Except.toOption]
      rw [hcons] at hi
      have hne : ¬sid = i := fun hc => hi (by rw [hc]; exact List.mem_cons_self _ _)
      have hrest : i ∉ bahnIds rest := fun hc => hi (List.mem_cons_of_mem _ hc)
      rw [ih _ hrest]
      rw [show ({ st with
        stops := stopsSet st.stops sid
          ({ stopsGet st.stops sid with
              name := some (pyStrip (strDrop line 12))
              authority := some (strSlice line 8 11) }) } : St).stops =
        stopsSet st.stops sid
          ({ stopsGet st.stops sid with
              name := some (pyStrip (strDrop line 12))
              authority := some (strSlice line 8 11) }) from rfl]
      rw [stopsGet_stopsSet]
      simp [hne]

theorem write_stop_missing (id : Int) (st : St)
    (hdone : (stopsGet st.stops id).done = false)
    (hmiss : (stopsGet st.stops id).name = none ∨
      (stopsGet st.stops id).lat = none ∨ (stopsGet st.stops id).lon = none) :
    write_stop id st = (.error .keyError, st) := by
  rcases hn : (stopsGet st.stops id).name with _ | nm <;>
    rcases hla : (stopsGet st.stops id).lat with _ | la <;>
      rcases hlo : (stopsGet st.stops id).lon with _ | lo
  all_goals simp [write_stop, hdone, hn, hla, hlo]
  simp_all

theorem inv_of_empty_log (st : St) (h : st.log = []) :
    RInv st ∧ SInv st ∧ Ramp st.log := by
  refine ⟨⟨?_, ?_⟩, ⟨?_, ?_⟩, ?_⟩ <;>
    simp [h, RInv, SInv, Ramp, routeRowIds, stopRowIds, seqBlocks, seqBlocksAux]

theorem inv_transfer_same (st st2 : St)
    (hlog : st2.log = st.log)
    (hro : st.routes ⊆ st2.routes)
    (hdone : ∀ i, (stopsGet st.stops i).done = true →
      (stopsGet st2.stops i).done = true) :
    (RInv st → RInv st2) ∧ (SInv st → SInv st2) ∧
    (Ramp st.log → Ramp st2.log) := by
  refine inv_transfer st st2 [] ?_ ?_ hro hdone
  · rw [hlog, List.append_nil]
  · simp

theorem parse_fplan_inv (lines : List String) (st : St)
    (hR : RInv st) (hS : SInv st) (hB : Ramp st.log) :
    RInv (parse_fplan lines st).2 ∧ SInv (parse_fplan lines st).2 ∧
    Ramp ((parse_fplan lines st).2).log := by
  unfold parse_fplan
  exact parse_fplan_go_inv lines st PMode.meta {} 0 0 hR hS hB
    (fun hc => by cases hc)

theorem agencyRow_inert (r : AgencyRow) :
    noTripStop (Event.agencyRow r) = true ∧
    (∀ q, Event.agencyRow r ≠ Event.routeRow q) ∧
    (∀ q, Event.agencyRow r ≠ Event.stopRow q) := by
  refine ⟨rfl, ?_, ?_⟩ <;> intro q hq <;> cases hq

theorem calendarRow_inert (r : CalendarRow) :
    noTripStop (Event.calendarRow r) = true ∧
    (∀ q, Event.calendarRow r ≠ Event.routeRow q) ∧
    (∀ q, Event.calendarRow r ≠ Event.stopRow q) := by
  refine ⟨rfl, ?_, ?_⟩ <;> intro q hq <;> cases hq

theorem calendarDateRow_inert (r : CalendarDateRow) :
    noTripStop (Event.calendarDateRow r) = true ∧
    (∀ q, Event.calendarDateRow r ≠ Event.routeRow q) ∧
    (∀ q, Event.calendarDateRow r ≠ Event.stopRow q) := by
  refine ⟨rfl, ?_, ?_⟩ <;> intro q hq <;> cases hq

theorem inv_write_agency (st : St) (h : RInv st ∧ SInv st ∧ Ramp st.log) :
    RInv (write_agency st) ∧ SInv (write_agency st) ∧
    Ramp (write_agency st).log := by
  obtain ⟨hro, hstops, r, hlog⟩ := write_agency_fields st
  have ht := inv_transfer st (write_agency st) [Event.agencyRow r] hlog
    (by intro e he; rw [List.mem_singleton] at he; subst he; exact agencyRow_inert r)
    (by rw [hro]; exact fun x hx => hx) (by intro i hi; rw [hstops]; exact hi)
  refine ⟨ht.1 h.1, ht.2.1 h.2.1, ?_⟩
  rw [hlog]
  have := ht.2.2 h.2.2
  rw [hlog] at this
  exact this

theorem inv_write_service (st : St) (h : RInv st ∧ SInv st ∧ Ramp st.log) :
    RInv (write_service st) ∧ SInv (write_service st) ∧
    Ramp (write_service st).log := by
  obtain ⟨hro, hstops, l, hlog, hcal⟩ := write_service_fields st
  have ht := inv_transfer st (write_service st) l hlog
    (by intro e he; obtain ⟨r, hr⟩ := hcal e he; subst hr; exact calendarRow_inert r)
    (by rw [hro]; exact fun x hx => hx) (by intro i hi; rw [hstops]; exact hi)
  exact ⟨ht.1 h.1, ht.2.1 h.2.1, by rw [hlog]; have h2 := ht.2.2 h.2.2; rw [hlog] at h2; exact h2⟩

theorem inv_write_service_dates (st : St)
    (h : RInv st ∧ SInv st ∧ Ramp st.log) :
    RInv (write_service_dates st) ∧ SInv (write_service_dates st) ∧
    Ramp (write_service_dates st).log := by
  obtain ⟨hro, hstops, l, hlog, hcal⟩ := write_service_dates_fields st
  have ht := inv_transfer st (write_service_dates st) l hlog
    (by intro e he; obtain ⟨r, hr⟩ := hcal e he; subst hr; exact calendarDateRow_inert r)
    (by rw [hro]; exact fun x hx => hx) (by intro i hi; rw [hstops]; exact hi)
  exact ⟨ht.1 h.1, ht.2.1 h.2.1, by rw [hlog]; have h2 := ht.2.2 h.2.2; rw [hlog] at h2; exact h2⟩

theorem inv_parse_eckdaten (lines : List String) (st : St)
    (h : RInv st ∧ SInv st ∧ Ramp st.log) :
    RInv (parse_eckdaten lines st).2 ∧ SInv (parse_eckdaten lines st).2 ∧
    Ramp ((parse_eckdaten lines st).2).log := by
  obtain ⟨hlog, hro, hstops⟩ := parse_eckdaten_fields lines st
  have ht := inv_transfer_same st _ hlog (by rw [hro]; exact fun x hx => hx)
    (by intro i hi; rw [hstops]; exact hi)
  exact ⟨ht.1 h.1, ht.2.1 h.2.1, by rw [hlog]; exact h.2.2⟩

theorem inv_parse_bitfeld (lines : List String) (st : St)
    (h : RInv st ∧ SInv st ∧ Ramp st.log) :
    RInv (parse_bitfeld lines st).2 ∧ SInv (parse_bitfeld lines st).2 ∧
    Ramp ((parse_bitfeld lines st).2).log := by
  obtain ⟨hlog, hro, hstops⟩ := parse_bitfeld_fields lines st
  have ht := inv_transfer_same st _ hlog (by rw [hro]; exact fun x hx => hx)
    (by intro i hi; rw [hstops]; exact hi)
  exact ⟨ht.1 h.1, ht.2.1 h.2.1, by rw [hlog]; exact h.2.2⟩

theorem inv_parse_bfkoord (proj : String → String → String × String)
    (lines : List String) (st : St)
    (h : RInv st ∧ SInv st ∧ Ramp st.log) :
    RInv (parse_bfkoord proj lines st).2 ∧
    SInv (parse_bfkoord proj lines st).2 ∧
    Ramp ((parse_bfkoord proj lines st).2).log := by
  obtain ⟨hlog, hro, hstops⟩ := parse_bfkoord_fields proj lines st
  have ht := inv_transfer_same st _ hlog (by rw [hro]; exact fun x hx => hx)
    (by intro i hi; rw [(hstops i).2]; exact hi)
  exact ⟨ht.1 h.1, ht.2.1 h.2.1, by rw [hlog]; exact h.2.2⟩

theorem inv_parse_bahnhof (lines : List String) (st : St)
    (h : RInv st ∧ SInv st ∧ Ramp st.log) :
    RInv (parse_bahnhof lines st).2 ∧ SInv (parse_bahnhof lines st).2 ∧
    Ramp ((parse_bahnhof lines st).2).log := by
  obtain ⟨hlog, hro, hstops⟩ := parse_bahnhof_fields lines st
  have ht := inv_transfer_same st _ hlog (by rw [hro]; exact fun x hx => hx)
    (by intro i hi; rw [(hstops i).2.2]; exact hi)
  exact ⟨ht.1 h.1, ht.2.1 h.2.1, by rw [hlog]; exact h.2.2⟩

theorem create_inv (proj : String → String → String × String)
    (eck bitf koord bahn fpl : List String) :
    RInv (create proj eck bitf koord bahn fpl).2 ∧
    SInv (create proj eck bitf koord bahn fpl).2 ∧
    Ramp ((create proj eck bitf koord bahn fpl).2).log := by
  have hinit : RInv initSt ∧ SInv initSt ∧ Ramp initSt.log :=
    inv_of_empty_log initSt rfl
  have h0 := inv_parse_eckdaten eck initSt hinit
  unfold create
  split
  · rename_i e st hmatch
    have hst : (parse_eckdaten eck initSt).2 = st := by rw [hmatch]
    rw [hst] at h0
    exact h0
  · rename_i u st0 hmatch
    have hst : (parse_eckdaten eck initSt).2 = st0 := by rw [hmatch]
    rw [hst] at h0
    have h1 := inv_write_agency st0 h0
    have h2 := inv_parse_bitfeld bitf (write_agency st0) h1
    dsimp only
    split
    · rename_i e st hmatch2
      have hst2 : (parse_bitfeld bitf (write_agency st0)).2 = st := by rw [hmatch2]
      rw [hst2] at h2
      exact h2
    · rename_i u2 st2 hmatch2
      have hst2 : (parse_bitfeld bitf (write_agency st0)).2 = st2 := by rw [hmatch2]
      rw [hst2] at h2
      have h3 := inv_write_service_dates (write_service st2)
        (inv_write_service st2 h2)
      have h4 := inv_parse_bfkoord proj koord
        (write_service_dates (write_service st2)) h3
      split
      · rename_i e st hmatch3
        have hst3 : (parse_bfkoord proj koord
            (write_service_dates (write_service st2))).2 = st := by rw [hmatch3]
        rw [hst3] at h4
        exact h4
      · rename_i u3 st4 hmatch3
        have hst3 : (parse_bfkoord proj koord
            (write_service_dates (write_service st2))).2 = st4 := by rw [hmatch3]
        rw [hst3] at h4
        have h5 := inv_parse_bahnhof bahn st4 h4
        split
        · rename_i e st hmatch4
          have hst4 : (parse_bahnhof bahn st4).2 = st := by rw [hmatch4]
          rw [hst4] at h5
          exact h5
        · rename_i u4 st5 hmatch4
          have hst4 : (parse_bahnhof bahn st4).2 = st5 := by rw [hmatch4]
          rw [hst4] at h5
          exact parse_fplan_inv fpl st5 h5.1 h5.2.1 h5.2.2

theorem runRoutes_auto_chain (ms : List Meta) : ∀ (st : St),
    (∀ n ∈ autoIds (runRoutes ms st).1, st.routeCounter < n) ∧
    (autoIds (runRoutes ms st).1).Pairwise (· < ·) := by
  induction ms with
  | nil => intro st; simp [runRoutes, autoIds]
  | cons m rest ih =>
    intro st
    unfold runRoutes
    rcases hwr : write_route m st with ⟨res, st1⟩
    rcases res with e | rid
    · simp [autoIds]
    · have hcnt := write_route_counter m st
      rw [hwr] at hcnt
      have hih := ih st1
      rcases hl : m.line_number with _ | s
      · have hrid : rid = RouteId.num (st.routeCounter + 1) := by
          have hv := write_route_ok_val m st rid (by rw [hwr])
          rw [hv]
          simp [resolved_route_id, hl]
        have hc1 : st1.routeCounter = st.routeCounter + 1 := by
          rw [hl] at hcnt
          simpa using hcnt
        subst hrid
        constructor
        · intro n hn
          simp only [autoIds, List.filterMap_cons] at hn
          simp only [List.mem_cons] at hn
          rcases hn with hn | hn
          · omega
          · have h2 := hih.1 n hn
            omega
        · show ((st.routeCounter + 1) :: autoIds (runRoutes rest st1).1).Pairwise (· < ·)
          rw [List.pairwise_cons]
          refine ⟨fun n hn => ?_, hih.2⟩
          have h2 := hih.1 n hn
          omega
      · have hrid : rid = RouteId.str s := by
          have hv := write_route_ok_val m st rid (by rw [hwr])
          rw [hv]
          simp [resolved_route_id, hl]
        have hc1 : st1.routeCounter = st.routeCounter := by
          rw [hl] at hcnt
          simpa using hcnt
        subst hrid
        constructor
        · intro n hn
          simp only [autoIds, List.filterMap_cons] at hn
          have h2 := hih.1 n hn
          omega
        · simpa [autoIds] using hih.2

/-! ## Claim theorems -/

/-- C1: the spec says the stored per-day vector has exactly
day_range = end - start + 1 entries (31 for the period 01.01.2020 to
31.01.2020).  The code computes (self.start - self.end).days + 1 = -29
instead, so the Python slice [2 : 2 + day_range] keeps a 7-bit window of the
36-bit payload rather than the 31 period days: evaluation of parse_bitfeld
at the failing input, exhibiting the wrong vector length. -/
theorem c1_bitfeld_window_length_bug :
    bitfeldDayRange stPeriodJan = -29 ∧
    ((dateB.toOrd : Int) - (dateA.toOrd : Int)) + 1 = 31 ∧
    (parse_bitfeld [bitfeldLine31] stPeriodJan).1 = .ok () ∧
    (((parse_bitfeld [bitfeldLine31] stPeriodJan).2).services.lookup 1) =
      some (List.replicate 7 true) ∧
    (List.replicate 7 true).length ≠ 31 := by
  refine ⟨by decide, by decide, by decide, by decide, by decide⟩

/-- C2 counterexample: a calendar line whose payload decodes to fewer than
2 + day_range bits (here zero bits against a one-day period needing three)
does not fail: parse_bitfeld succeeds and silently stores a truncated
(empty) vector; no CalendarDecodeError exists in the code. -/
theorem c2_counterexample :
    bitfeldDayRange stPeriodOneDay = 1 ∧
    hexToBits (strDrop bitfeldLineEmpty 6) = some [] ∧
    parse_bitfeld [bitfeldLineEmpty] stPeriodOneDay =
      (.ok (), { stPeriodOneDay with services := [(1, [])] }) ∧
    ([] : List Bool).length ≠ 1 := by
  refine ⟨by decide, by decide, by decide, by decide⟩

/-- C2 amended: for a well-formed calendar line whose payload has fewer
than 2 + day_range bits (day_range at least 1), the decoder does not fail:
it returns the Python slice, a vector strictly shorter than day_range
(silent truncation instead of a CalendarDecodeError). -/
theorem c2_truncation_amended (day_range : Int) (line : String) (sid : Int)
    (bits : List Bool)
    (hsid : pyInt (strSlice line 0 6) = .ok sid)
    (hhex : hexToBits (strDrop line 6) = some bits)
    (hdr : 1 ≤ day_range)
    (hshort : (bits.length : Int) < 2 + day_range) :
    parse_bitfeld_line day_range line =
      .ok (sid, pySliceList bits 2 (2 + day_range)) ∧
    ((pySliceList bits 2 (2 + day_range)).length : Int) < day_range := by
  refine ⟨by simp [parse_bitfeld_line, hsid, hhex], ?_⟩
  unfold pySliceList pySliceIdx
  simp only [List.length_take, List.length_drop]
  have h2 : ¬((2 : Int) < 0) := by omega
  have h3 : ¬((2 + day_range : Int) < 0) := by omega
  rw [if_neg h2, if_neg h3]
  omega

/-- C2 witness for the amended statement: the empty payload against a
one-day window. -/
theorem c2_truncation_amended_witness :
    parse_bitfeld_line 1 ("000001") = .ok (1, pySliceList [] 2 (2 + 1)) ∧
    ((pySliceList [] 2 (2 + 1)).length : Int) < 1 :=
  c2_truncation_amended 1 ("000001") 1 [] (by decide) (by decide) (by decide)
    (by decide)

theorem get_gtfs_time_not_falsy (hm : Int × Int) :
    pyFalsy (get_gtfs_time (some hm)) = false := by
  simp only [get_gtfs_time, pyFalsy]
  rw [Bool.eq_false_iff]
  intro hc
  rw [String.isEmpty_iff] at hc
  have h1 := congrArg String.length hc
  rw [String.length_append, String.length_append, String.length_append,
    String.length_append] at h1
  have h2 : String.length (":") = 1 := by decide
  have h3 : String.length ("00") = 2 := by decide
  have h4 : String.length ("") = 0 := by decide
  omega

/-- C3 counterexample: a schedule data line with both time fields blank
parses to a stop line with no arrival and no departure, and write_stop_time
emits a stop-time row whose arrival and departure are both empty, refuting
the unconditional half of the claim. -/
theorem c3_counterexample :
    parse_schedule dataLineNoTimes = .ok
      { stop_id := 669, stop_name := "Refrath"
        arrival_time := none, departure_time := none } ∧
    (write_stop_time 1 1
      { stop_id := 669, stop_name := "Refrath"
        arrival_time := none, departure_time := none } stStop669).1 = .ok () ∧
    ((write_stop_time 1 1
      { stop_id := 669, stop_name := "Refrath"
        arrival_time := none, departure_time := none } stStop669).2).log =
      [Event.stopRow
        { stop_id := 669, stop_code := 669, stop_name := "Refrath"
          stop_desc := "", stop_lat := "1.0", stop_lon := "2.0"
          zone_id := none, stop_url := "", location_type := "0"
          parent_station := none },
       Event.stopTimeRow
        { trip_id := 1, arrival_time := none, departure_time := none
          stop_id := 669, stop_sequence := 1, stop_headsign := ""
          pickup_type := "0", drop_off_type := "0"
          shape_dist_traveled := "0" }] := by
  refine ⟨by decide, by decide, by decide⟩

/-- C3 amended: provided at least one source time value is present, the
emitted stop-time row has neither field empty; when exactly one value is
present both output fields equal that value (when both are absent, both
output fields are empty, as the counterexample shows). -/
theorem c3_one_time_amended (t : Int) (q : Nat) (sl : StopLine) (st : St)
    (h : (write_stop_time t q sl st).1 = .ok ())
    (hone : sl.arrival_time.isSome = true ∨ sl.departure_time.isSome = true) :
    ∃ r : StopTimeRow,
      ((write_stop_time t q sl st).2).log =
        ((write_stop sl.stop_id st).2).log ++ [Event.stopTimeRow r] ∧
      r.trip_id = t ∧ r.stop_sequence = q ∧
      r.arrival_time.isSome = true ∧ r.departure_time.isSome = true ∧
      (sl.arrival_time = none →
        r.arrival_time = get_gtfs_time sl.departure_time ∧
        r.departure_time = get_gtfs_time sl.departure_time) ∧
      (sl.departure_time = none →
        r.arrival_time = get_gtfs_time sl.arrival_time ∧
        r.departure_time = get_gtfs_time sl.arrival_time) := by
  unfold write_stop_time at h ⊢
  rcases hws : write_stop sl.stop_id st with ⟨res, st1⟩
  rcases res with e | v
  · rw [hws] at h
    simp at h
  · rcases hat : sl.arrival_time with _ | a
    · rcases hdt : sl.departure_time with _ | d
      · rw [hat, hdt] at hone
        simp at hone
      · have hf := get_gtfs_time_not_falsy d
        refine ⟨_, rfl, rfl, rfl, ?_, ?_, ?_, ?_⟩ <;>
          simp [get_gtfs_time, pyFalsy] at hf <;>
            simp [hat, hdt, get_gtfs_time, pyFalsy, hf]
    · rcases hdt : sl.departure_time with _ | d
      · have hf := get_gtfs_time_not_falsy a
        refine ⟨_, rfl, rfl, rfl, ?_, ?_, ?_, ?_⟩ <;>
          simp [get_gtfs_time, pyFalsy] at hf <;>
            simp [hat, hdt, get_gtfs_time, pyFalsy, hf]
      · have hfa := get_gtfs_time_not_falsy a
        have hfd := get_gtfs_time_not_falsy d
        refine ⟨_, rfl, rfl, rfl, ?_, ?_, ?_, ?_⟩ <;>
          simp [get_gtfs_time, pyFalsy] at hfa hfd <;>
            simp [hat, hdt, get_gtfs_time, pyFalsy, hfa, hfd]

/-- C3 witness for the amended statement: a stop line with only a
departure time. -/
theorem c3_one_time_amended_witness :
    (write_stop_time 1 1
      { stop_id := 669, stop_name := "Refrath"
        arrival_time := none, departure_time := some (6, 35) } stStop669).1 =
      .ok () ∧
    ∃ r : StopTimeRow,
      ((write_stop_time 1 1
        { stop_id := 669, stop_name := "Refrath"
          arrival_time := none, departure_time := some (6, 35) }
          stStop669).2).log =
        ((write_stop 669 stStop669).2).log ++ [Event.stopTimeRow r] ∧
      r.trip_id = 1 ∧ r.stop_sequence = 1 ∧
      r.arrival_time.isSome = true ∧ r.departure_time.isSome = true ∧
      ((none : Option (Int × Int)) = none →
        r.arrival_time = get_gtfs_time (some (6, 35)) ∧
        r.departure_time = get_gtfs_time (some (6, 35))) ∧
      (some ((6 : Int), (35 : Int)) = none →
        r.arrival_time = get_gtfs_time (none : Option (Int × Int)) ∧
        r.departure_time = get_gtfs_time (none : Option (Int × Int))) :=
  ⟨by decide,
    c3_one_time_amended 1 1
      { stop_id := 669, stop_name := "Refrath"
        arrival_time := none, departure_time := some (6, 35) } stStop669
      (by decide) (Or.inr (by decide))⟩

/-- C4: route resolution per finalized trip: an explicit line number in the
accumulated meta is the resolved route id verbatim; without one the id is
the bumped run-scoped counter value, and the counter-assigned ids of any
sequence of resolutions are pairwise distinct (never reused). -/
theorem c4_route_resolution (meta : Meta) (st : St) :
    (∀ s, meta.line_number = some s →
      ∀ r st2, write_route meta st = (.ok r, st2) → r = RouteId.str s) ∧
    (meta.line_number = none →
      ((write_route meta st).2).routeCounter = st.routeCounter + 1 ∧
      ∀ r st2, write_route meta st = (.ok r, st2) →
        r = RouteId.num (st.routeCounter + 1)) ∧
    (∀ ms : List Meta, (autoIds (runRoutes ms st).1).Nodup) := by
  refine ⟨?_, ?_, ?_⟩
  · intro s hl r st2 hw
    have hv := write_route_ok_val meta st r (by rw [hw])
    rw [hv]
    simp [resolved_route_id, hl]
  · intro hl
    constructor
    · have hc := write_route_counter meta st
      rw [hl] at hc
      simpa using hc
    · intro r st2 hw
      have hv := write_route_ok_val meta st r (by rw [hw])
      rw [hv]
      simp [resolved_route_id, hl]
  · intro ms
    have hch := (runRoutes_auto_chain ms st).2
    exact List.Pairwise.imp (fun h => Nat.ne_of_lt h) hch

/-- C4 witness: an explicit line number 100 resolves to that id, an
omitted one at counter 99 resolves to 100, and the auto ids of a two-trip
run are distinct. -/
theorem c4_route_resolution_witness :
    RouteId.str ("100") = RouteId.str ("100") ∧
    ((write_route metaAuto stCounter99).2).routeCounter =
      stCounter99.routeCounter + 1 ∧
    (autoIds (runRoutes [metaAuto, metaAuto] stCounter99).1).Nodup :=
  ⟨(c4_route_resolution metaLine100 initSt).1 "100" rfl (RouteId.str ("100"))
      ((write_route metaLine100 initSt).2)
      (by rw [show write_route metaLine100 initSt =
        ((write_route metaLine100 initSt).1, (write_route metaLine100 initSt).2)
        from rfl]
          rw [show (write_route metaLine100 initSt).1 =
            Except.ok (RouteId.str ("100")) from by decide]),
    ((c4_route_resolution metaAuto stCounter99).2.1 rfl).1,
    (c4_route_resolution metaAuto stCounter99).2.2 [metaAuto, metaAuto]⟩

theorem write_route_cached (m : Meta) (st : St) (s : String)
    (hl : m.line_number = some s) (hm : RouteId.str s ∈ st.routes) :
    write_route m st = (.ok (.str s), st) := by
  simp [write_route, hl, hm]

/-- C5: over a whole run (any five input files), the routes table contains
at most one row per resolved route id; and a resolution of an explicit line
number that is already registered returns the cached id with the state
untouched (no second row). -/
theorem c5_route_rows_unique (proj : String → String → String × String)
    (eck bitf koord bahn fpl : List String) :
    (routeRowIds ((create proj eck bitf koord bahn fpl).2).log).Nodup ∧
    (∀ (meta : Meta) (st : St) (s : String),
      meta.line_number = some s → RouteId.str s ∈ st.routes →
      write_route meta st = (.ok (RouteId.str s), st)) :=
  ⟨(create_inv proj eck bitf koord bahn fpl).1.1,
    fun meta st s hl hm => write_route_cached meta st s hl hm⟩

/-- C5 witness: the two-trips-same-line-number run emits exactly one routes
row, and a second resolution of the registered id 100 is a no-op. -/
theorem c5_route_rows_unique_witness :
    (routeRowIds ((create projIdentity eckLines [] koordLines bahnLines
      fplanLinesC8).2).log).Nodup ∧
    write_route metaNoG { initSt with routes := [RouteId.str ("100")] } =
      (.ok (RouteId.str ("100")), { initSt with routes := [RouteId.str ("100")] }) :=
  ⟨(c5_route_rows_unique projIdentity eckLines [] koordLines bahnLines
      fplanLinesC8).1,
    (c5_route_rows_unique projIdentity eckLines [] koordLines bahnLines
      fplanLinesC8).2 metaNoG { initSt with routes := [RouteId.str ("100")] }
      "100" rfl (by decide)⟩

/-- C6: over a whole run, the stops table contains at most one row per stop
id; and a reference to a stop whose registry record is already marked done
is a no-op returning the same stop id with the state untouched. -/
theorem c6_stop_rows_unique (proj : String → String → String × String)
    (eck bitf koord bahn fpl : List String) :
    (stopRowIds ((create proj eck bitf koord bahn fpl).2).log).Nodup ∧
    (∀ (id : Int) (st : St), (stopsGet st.stops id).done = true →
      write_stop id st = (.ok id, st)) :=
  ⟨(create_inv proj eck bitf koord bahn fpl).2.1.1,
    fun id st h => write_stop_done_noop id st h⟩

/-- C6 witness: the run whose schedule references stop 669 twice emits one
stops row, and a repeated reference to a done stop is a no-op. -/
theorem c6_stop_rows_unique_witness :
    (stopRowIds ((create projIdentity eckLines [] koordLines bahnLines
      fplanLinesC8).2).log).Nodup ∧
    write_stop 669 { stStop669 with
      stops := [(669, { name := some ("Refrath"), lat := some ("1.0")
                        lon := some ("2.0"), done := true })] } =
      (.ok 669, { stStop669 with
        stops := [(669, { name := some ("Refrath"), lat := some ("1.0")
                          lon := some ("2.0"), done := true })] }) :=
  ⟨(c6_stop_rows_unique projIdentity eckLines [] koordLines bahnLines
      fplanLinesC8).1,
    (c6_stop_rows_unique projIdentity eckLines [] koordLines bahnLines
      fplanLinesC8).2 669 _ (by decide)⟩

/-- C7: over a whole run, every per-trip block of stop_times sequence
numbers (the stop-time rows between one trips row and the next) reads
exactly 1, 2, ..., N in emission order. -/
theorem c7_sequence_ramps (proj : String → String → String × String)
    (eck bitf koord bahn fpl : List String) :
    ∀ b ∈ seqBlocks ((create proj eck bitf koord bahn fpl).2).log,
      b = List.range' 1 b.length :=
  (create_inv proj eck bitf koord bahn fpl).2.2

/-- C7 witness: the one-stop trip block of the two-trip run is [1]. -/
theorem c7_sequence_ramps_witness :
    [1] = List.range' 1 ([1] : List Nat).length :=
  c7_sequence_ramps projIdentity eckLines [] koordLines bahnLines fplanLinesC8
    [1] (by decide)

/-- C8 counterexample: a full run whose second trip block carries a service
number and the already-registered line number 100 but no G line at all
completes without any error and emits both trips; and finalizing directly
from such a meta (no mean_of_transport) over a state with route 100 cached
succeeds.  This refutes the claim that a missing transport-mode key always
aborts the run. -/
theorem c8_counterexample :
    (create projIdentity eckLines [] koordLines bahnLines fplanLinesC8).1 =
      .ok () ∧
    tripRowIds ((create projIdentity eckLines [] koordLines bahnLines
      fplanLinesC8).2).log = [1, 2] ∧
    metaNoG.mean_of_transport = none ∧
    finalize_trip metaNoG { initSt with routes := [RouteId.str ("100")] } =
      (.ok 2,
        { initSt with
            routes := [RouteId.str ("100")]
            log := [Event.tripRow
              { route_id := RouteId.str ("100"), service_id := "0"
                trip_id := 2, trip_headsign := "", trip_short_name := ""
                direction_id := "0", block_id := "", shape_id := "" }] }) := by
  refine ⟨by decide, by decide, by decide, by decide⟩

/-- C8 amended: finalizing a trip raises a KeyError exactly when the
accumulated meta lacks a service number, or lacks a transport-mode code
while the resolved route id is not already cached in the route registry;
a cached route id makes the transport-mode key unnecessary. -/
theorem c8_finalize_keys_amended (meta : Meta) (st : St) :
    (finalize_trip meta st).1 = .error .keyError ↔
      (meta.service_number = none ∨
        (meta.mean_of_transport = none ∧
          resolved_route_id meta st ∉ st.routes)) := by
  by_cases hm : resolved_route_id meta st ∈ st.routes <;>
    rcases hl : meta.line_number with _ | s <;>
      rcases hmot : meta.mean_of_transport with _ | mo <;>
        rcases hsn : meta.service_number with _ | sn <;>
          simp only [resolved_route_id, hl] at hm <;>
            simp [finalize_trip, write_route, emitRoute, write_trip,
              resolved_route_id, hl, hmot, hsn, hm]

/-- C9: starting from an empty registry, after ingesting the coordinate
and names files (in pipeline order), the first reference to any stop id
that is absent from either file makes write_stop raise a KeyError and leave
the state untouched: no partial row is emitted. -/
theorem c9_missing_stop_aborts (proj : String → String → String × String)
    (koord bahn : List String) (st0 : St) (id : Int)
    (hstops : st0.stops = [])
    (hmiss : id ∉ koordIds koord ∨ id ∉ bahnIds bahn) :
    write_stop id ((parse_bahnhof bahn (parse_bfkoord proj koord st0).2).2) =
      (.error .keyError,
        (parse_bahnhof bahn (parse_bfkoord proj koord st0).2).2) := by
  have h0 : stopsGet st0.stops id = {} := by rw [hstops]; rfl
  have hbfk := parse_bfkoord_fields proj koord st0
  have hbah := parse_bahnhof_fields bahn (parse_bfkoord proj koord st0).2
  apply write_stop_missing
  · rw [(hbah.2.2 id).2.2, (hbfk.2.2 id).2, h0]
  · rcases hmiss with hmiss | hmiss
    · right
      left
      rw [(hbah.2.2 id).1, parse_bfkoord_untouched proj koord st0 id hmiss, h0]
    · left
      rw [parse_bahnhof_untouched bahn (parse_bfkoord proj koord st0).2 id hmiss,
        (hbfk.2.2 id).1, h0]

/-- C9 witness: stop 669 appears in the coordinate file but the names file
is empty, so its first reference dies with a KeyError. -/
theorem c9_missing_stop_aborts_witness :
    write_stop 669
      ((parse_bahnhof [] (parse_bfkoord projIdentity koordLines initSt).2).2) =
      (.error .keyError,
        (parse_bahnhof [] (parse_bfkoord projIdentity koordLines initSt).2).2) :=
  c9_missing_stop_aborts projIdentity koordLines [] initSt 669 rfl
    (Or.inr (by decide))

/-- C10: explicit route ids are strings while counter-assigned ids are
ints, two key kinds that are never equal, so the two resolution paths never
deduplicate against each other: in a run whose counter has reached 99, an
auto-resolved trip takes id 100 and a later explicit line number 100 takes
id str 100, and each writes its own routes row. -/
theorem c10_route_key_kinds (meta : Meta) (st : St) :
    (∀ s n, RouteId.str s ≠ RouteId.num n) ∧
    (∀ s, meta.line_number = some s →
      ∀ r st2, write_route meta st = (.ok r, st2) → r = RouteId.str s) ∧
    (meta.line_number = none →
      ∀ r st2, write_route meta st = (.ok r, st2) →
        r = RouteId.num (st.routeCounter + 1)) ∧
    ((runRoutes [metaAuto, metaLine100] stCounter99).1 =
      [RouteId.num 100, RouteId.str ("100")] ∧
     routeRowIds ((runRoutes [metaAuto, metaLine100] stCounter99).2).log =
      [RouteId.num 100, RouteId.str ("100")]) := by
  refine ⟨?_, ?_, ?_, ?_⟩
  · intro s n h
    cases h
  · intro s hl r st2 hw
    have hv := write_route_ok_val meta st r (by rw [hw])
    rw [hv]
    simp [resolved_route_id, hl]
  · intro hl r st2 hw
    have hv := write_route_ok_val meta st r (by rw [hw])
    rw [hv]
    simp [resolved_route_id, hl]
  · exact ⟨by decide, by decide⟩

/-- C10 witness: the disequality and the concrete two-row run, obtained by
applying the theorem at the meta with line number 100. -/
theorem c10_route_key_kinds_witness :
    RouteId.str ("100") ≠ RouteId.num 100 ∧
    (runRoutes [metaAuto, metaLine100] stCounter99).1 =
      [RouteId.num 100, RouteId.str ("100")] :=
  ⟨(c10_route_key_kinds metaLine100 initSt).1 "100" 100,
    (c10_route_key_kinds metaLine100 initSt).2.2.2.1⟩
